import Mathlib

/-!
The blank-notes editor: note store, current-note resolution and derived
display values.

A shallow embedding of `static/js/app.js`.

* A JavaScript string is the list of its UTF-16 code units, so `length`,
  `substring` and `split` count what the program counts.
* The global variables `currentNoteId` and `notes`, the two `localStorage`
  slots and the `note` query parameter of the URL form one explicit state
  record; every function of the program that touches them is a function on
  that record.
* What the program reads from its environment (the clock, `Math.random`, the
  answer to `confirm`) is an argument of the function that reads it.
* The DOM (textarea, sidebar markup, modals) is not part of the state.
* The functions on the store come twice. The first embedding takes note
  identifiers from `NoteId` (non-empty strings that name no member of
  `Object.prototype`) and lets every write to `localStorage` succeed. The
  namespace `Raw` embeds them on every string, with the property reads of
  `notes` going through its prototype chain and with writes that may be
  rejected; what the program does at `constructor` or `__proto__`, or with a
  full storage, is stated there.
-/

namespace BlankNotes

/-! ## Strings -/

/-- A JavaScript string: its sequence of UTF-16 code units. -/
abbrev JSString := List Nat

/-- The code units of a literal of the source text. -/
def lit (s : String) : JSString := s.toList.map Char.toNat

/-- ECMAScript white space and line terminators: the characters removed by
`String.prototype.trim` and matched by the regular expression class `\s`. -/
def isWhiteSpace (c : Nat) : Bool :=
  c == 9 || c == 10 || c == 11 || c == 12 || c == 13 || c == 32 || c == 160 ||
  c == 5760 || (8192 ≤ c && c ≤ 8202) || c == 8232 || c == 8233 || c == 8239 ||
  c == 8287 || c == 12288 || c == 65279

/-- The method `String.prototype.trim`: white space removed at both ends. -/
def trim (s : JSString) : JSString :=
  (s.dropWhile isWhiteSpace).rdropWhile isWhiteSpace

/-- The call `s.split('\n')`: the pieces of `s` between line feeds (code unit 10). -/
def splitLines : JSString → List JSString
  | [] => [[]]
  | c :: cs =>
    if c = 10 then [] :: splitLines cs
    else
      match splitLines cs with
      | [] => [[c]]
      | l :: ls => (c :: l) :: ls

/-- Worker of `splitWhiteSpace`: `acc` is the piece being read, reversed;
`inSep` tells that the previous character belonged to a separator. -/
def splitWhiteSpaceAux : Bool → JSString → JSString → List JSString
  | _, acc, [] => [acc.reverse]
  | inSep, acc, c :: cs =>
    if isWhiteSpace c then
      if inSep then splitWhiteSpaceAux true [] cs
      else acc.reverse :: splitWhiteSpaceAux true [] cs
    else splitWhiteSpaceAux false (c :: acc) cs

/-- The call `s.split(/\s+/)` for a non-empty `s`: the pieces of `s` between maximal
runs of white space; a run at either end of `s` leaves an empty piece there. -/
def splitWhiteSpace (s : JSString) : List JSString :=
  splitWhiteSpaceAux false [] s

/-! ## Derived display values -/

/-- The title of a note, from its content (`getNoteTitleFromContent`). -/
def getNoteTitleFromContent (content : JSString) : JSString :=
  if content = [] ∨ trim content = [] then lit "Untitled"
  else
    let firstLine := trim ((splitLines content).headD [])
    if firstLine.length = 0 then lit "Untitled"
    else if firstLine.length > 50 then firstLine.take 50 ++ lit "..."
    else firstLine

/-- The two numbers `updateWordCount` writes into the word-count element:
`(words, chars)`. -/
def updateWordCount (content : JSString) : Nat × Nat :=
  let content := if content = [] then [] else content
  let trimmed := trim content
  let words :=
    if trimmed = [] then 0
    else ((splitWhiteSpace trimmed).filter (fun word => decide (word.length > 0))).length
  let chars := content.length
  (words, chars)

/-! ## Notes and the store -/

/-- The names of the members of `Object.prototype`. For these names alone a
property read `notes[name]` on a plain object is answered by the prototype
and not by an own property of the object. -/
def objectPrototypeNames : List JSString :=
  [lit "constructor", lit "hasOwnProperty", lit "isPrototypeOf",
   lit "propertyIsEnumerable", lit "toLocaleString", lit "toString",
   lit "valueOf", lit "__proto__", lit "__defineGetter__",
   lit "__defineSetter__", lit "__lookupGetter__", lit "__lookupSetter__"]

/-- The strings that serve as note identifiers: non-empty (the program takes
an empty string for a missing identifier: `!currentNoteId`,
`noteIdFromUrl && ...`) and not the name of a member of `Object.prototype`
(so that `notes[id]` reads an own property of the store object). -/
def isNoteId (s : JSString) : Bool :=
  s != [] && !(objectPrototypeNames.contains s)

/-- A note identifier. An identifier variable of the program that is `null`
or the empty string is `none : Option NoteId`. -/
structure NoteId where
  chars : JSString
  valid : isNoteId chars = true
  deriving DecidableEq

/-- A note record `{ id, title, content, createdAt, updatedAt }`. The two
timestamps are ISO strings in the program, which compares them through
`new Date(...)`: here they are the milliseconds these dates denote. -/
structure Note where
  id : NoteId
  title : JSString
  content : JSString
  createdAt : Nat
  updatedAt : Nat
  deriving DecidableEq

/-- The object `notes`: its own properties in enumeration order, which for
identifiers that are not array indices is the order of insertion. -/
abbrev Store := List (NoteId × Note)

/-- The read `notes[k]`. -/
def Store.get (s : Store) (k : NoteId) : Option Note := s.lookup k

/-- The list `Object.keys(notes)`. -/
def Store.keys (s : Store) : List NoteId := s.map Prod.fst

/-- The assignment `notes[k] = v`: the value of an existing property is
replaced in place, a new property comes last. -/
def Store.set (s : Store) (k : NoteId) (v : Note) : Store :=
  if (s.get k).isSome then s.map (fun e => if e.1 = k then (k, v) else e)
  else s ++ [(k, v)]

/-- The statement `delete notes[k]`. -/
def Store.erase (s : Store) (k : NoteId) : Store :=
  s.filter (fun e => decide (e.1 ≠ k))

/-- The notes of the store, in key order (`getAllNotes`, and the same
expression `Object.keys(notes).map(id => notes[id])` elsewhere). -/
def getAllNotes (notes : Store) : List Note :=
  notes.keys.filterMap notes.get

/-- The order `Array.prototype.sort` is given in the program: the comparator
`new Date(b.updatedAt) - new Date(a.updatedAt)` puts `a` before `b` when `a`
is the more recent. -/
def moreRecent (a b : Note) : Prop := b.updatedAt ≤ a.updatedAt

instance : DecidableRel moreRecent := fun a b => Nat.decLe b.updatedAt a.updatedAt

instance : IsTotal Note moreRecent := ⟨fun a b => Nat.le_total b.updatedAt a.updatedAt⟩

instance : IsTrans Note moreRecent :=
  ⟨fun _ _ _ hab hbc => Nat.le_trans hbc hab⟩

/-- The call `.sort((a, b) => new Date(b.updatedAt) - new Date(a.updatedAt))`:
the stable sort by decreasing `updatedAt`. -/
def sortByUpdatedDesc (l : List Note) : List Note := l.insertionSort moreRecent

/-! ## Application state -/

/-- The content of the `localStorage` slot `blankpage_notes`: nothing (or the
empty string), the JSON text of a store, or a text `JSON.parse` rejects. The
JSON text is kept as the store it denotes: `JSON.parse (JSON.stringify notes)`
is `notes` again for records of strings. -/
inductive NotesSlot where
  | absent
  | json (notes : Store)
  | malformed
  deriving DecidableEq

/-- The state the program keeps between two events. -/
structure AppState where
  /-- The global variable `currentNoteId`. -/
  currentNoteId : Option NoteId
  /-- The global variable `notes`. -/
  notes : Store
  /-- The slot `blankpage_notes` of `localStorage`. -/
  storedNotes : NotesSlot
  /-- The slot `blankpage_last_note` of `localStorage`. -/
  lastNote : Option NoteId
  /-- The `note` parameter of the query string of the page. -/
  urlNote : Option NoteId
  /-- How many times the `confirm` dialog has been shown. -/
  confirmCount : Nat
  deriving DecidableEq

/-- What one event handler reads from outside the state. -/
structure Env where
  /-- The value of `Date.now()` in `generateNoteId`. -/
  dateNow : Nat
  /-- The value of `Math.random().toString(36).substr(2, 9)`. -/
  random : JSString
  /-- The value of `new Date()`. -/
  now : Nat
  /-- The value of the second `new Date()` of `createFirstNote`. -/
  nowAgain : Nat
  /-- The answer of the user to `confirm`. -/
  confirm : Bool

/-! ## The functions of the program -/

/-- The identifier `'note_' + Date.now() + '_' + Math.random()...` of
`generateNoteId`. It starts with `note_`, hence is a note identifier. -/
def generateNoteId (dateNow : Nat) (random : JSString) : NoteId :=
  ⟨lit "note_" ++ lit (toString dateNow) ++ lit "_" ++ random, by
    have hp : lit "note_" = 110 :: lit "ote_" := by decide
    have hn : ∀ n ∈ objectPrototypeNames, n.head? ≠ some 110 := by decide
    rw [hp]
    simp only [isNoteId, List.cons_append, Bool.and_eq_true, Bool.not_eq_true']
    refine ⟨by simp, ?_⟩
    cases hc : objectPrototypeNames.contains
        (110 :: (lit "ote_" ++ lit (toString dateNow) ++ lit "_" ++ random)) with
    | false => rfl
    | true => exact absurd rfl (hn _ (List.elem_iff.mp hc))⟩

/-- The function `loadNotesFromStorage`: `notes` becomes what the slot
denotes, the empty object when the slot is empty or does not parse. -/
def loadNotesFromStorage (st : AppState) : AppState :=
  match st.storedNotes with
  | .json stored => { st with notes := stored }
  | .malformed => { st with notes := [] }
  | .absent => { st with notes := [] }

/-- The function `saveNotesToStorage`: the slot receives
`JSON.stringify(notes)`. -/
def saveNotesToStorage (st : AppState) : AppState :=
  { st with storedNotes := .json st.notes }

/-- The function `updateUrlForNote`: the `note` parameter of the URL is set
(`history.replaceState`). -/
def updateUrlForNote (st : AppState) (noteId : NoteId) : AppState :=
  { st with urlNote := some noteId }

/-- The guard `id && notes[id]` on an identifier variable: the identifier when
it is present and names a property of `notes`. -/
def nameInStore (notes : Store) : Option NoteId → Option NoteId
  | some k => if (notes.get k).isSome then some k else none
  | none => none

/-- The create-or-update step of `saveToLocalStorage` (the `if` on
`!notes[currentNoteId]`). -/
def upsert (notes : Store) (id : NoteId) (content : JSString) (now : Nat) : Store :=
  let title := getNoteTitleFromContent content
  match notes.get id with
  | none =>
    notes.set id
      { id := id, title := title, content := content, createdAt := now, updatedAt := now }
  | some old =>
    notes.set id { old with title := title, content := content, updatedAt := now }

/-- The function `saveToLocalStorage`. -/
def saveToLocalStorage (st : AppState) (env : Env) (content : JSString) : AppState :=
  let id :=
    match st.currentNoteId with
    | some i => i
    | none => generateNoteId env.dateNow env.random
  let st1 := { st with currentNoteId := some id, notes := upsert st.notes id content env.now }
  let st2 := saveNotesToStorage st1
  let st3 := { st2 with lastNote := some id }
  if st3.urlNote ≠ some id then updateUrlForNote st3 id else st3

/-- The function `handleTextareaInput`. -/
def handleTextareaInput (st : AppState) (env : Env) (content : JSString) : AppState :=
  let st1 :=
    match st.currentNoteId with
    | some _ => st
    | none =>
      match nameInStore st.notes st.urlNote with
      | some noteIdFromUrl => { st with currentNoteId := some noteIdFromUrl }
      | none => { st with currentNoteId := some (generateNoteId env.dateNow env.random) }
  saveToLocalStorage st1 env content

/-- The function `createFirstNote`. -/
def createFirstNote (st : AppState) (env : Env) : AppState :=
  let id := generateNoteId env.dateNow env.random
  let note : Note :=
    { id := id
      title := lit "Welcome to blank.ashref.tn"
      content := lit "Welcome to blank.ashref.tn\n\nStart typing to create your first note..."
      createdAt := env.now
      updatedAt := env.nowAgain }
  let st1 := { st with currentNoteId := some id, notes := st.notes.set id note }
  updateUrlForNote (saveNotesToStorage st1) id

/-- The function `createNewNote`. -/
def createNewNote (st : AppState) (env : Env) : AppState :=
  let id := generateNoteId env.dateNow env.random
  let newNote : Note :=
    { id := id, title := lit "Untitled", content := [], createdAt := env.now,
      updatedAt := env.now }
  let st1 := { st with currentNoteId := some id, notes := st.notes.set id newNote }
  updateUrlForNote (saveNotesToStorage st1) id

/-- The function `switchToNote`. -/
def switchToNote (st : AppState) (noteId : NoteId) : AppState :=
  match st.notes.get noteId with
  | none => st
  | some _ => updateUrlForNote { st with currentNoteId := some noteId } noteId

/-- The function `deleteNote`. -/
def deleteNote (st : AppState) (env : Env) (noteId : NoteId) : AppState :=
  match st.notes.get noteId with
  | none => st
  | some _ =>
    let st0 := { st with confirmCount := st.confirmCount + 1 }
    if env.confirm then
      let st1 := saveNotesToStorage { st0 with notes := st0.notes.erase noteId }
      if st1.currentNoteId = some noteId then
        let remainingNotes := st1.notes.keys
        if remainingNotes.length > 0 then
          match sortByUpdatedDesc (remainingNotes.filterMap st1.notes.get) with
          | latestNote :: _ => switchToNote st1 latestNote.id
          | [] => st1
        else createNewNote st1 env
      else st1
    else st0

/-- The function `loadCurrentNote`. -/
def loadCurrentNote (st : AppState) (env : Env) : AppState :=
  let st1 := loadNotesFromStorage st
  let allNotes := getAllNotes st1.notes
  if allNotes.length = 0 then createFirstNote st1 env
  else
    match nameInStore st1.notes st1.urlNote with
    | some noteIdFromUrl => { st1 with currentNoteId := some noteIdFromUrl }
    | none =>
      match nameInStore st1.notes st1.lastNote with
      | some lastNoteId =>
        updateUrlForNote { st1 with currentNoteId := some lastNoteId } lastNoteId
      | none =>
        if allNotes.length > 0 then
          match sortByUpdatedDesc allNotes with
          | mostRecentNote :: _ =>
            updateUrlForNote { st1 with currentNoteId := some mostRecentNote.id }
              mostRecentNote.id
          | [] => st1
        else st1

/-! ## Sidebar and download -/

/-- One entry of the sidebar list: the note it shows (title, date and the id
put in its `onclick` handlers) and whether it carries the highlight classes
of the active note. -/
structure SidebarEntry where
  note : Note
  isActive : Bool
  deriving DecidableEq

/-- What `updateSidebar` writes: the entries of the page list (`none` for the
`No notes yet` placeholder) and the text of the title element of the
navigation bar (`none` when it is not written). -/
structure SidebarView where
  entries : Option (List SidebarEntry)
  currentPageTitle : Option JSString
  deriving DecidableEq

/-- The function `updateSidebar`, with the page list and the title element
present in the document. -/
def updateSidebar (st : AppState) : SidebarView :=
  let noteIds := st.notes.keys
  if noteIds.length = 0 then { entries := none, currentPageTitle := none }
  else
    let sortedNotes := sortByUpdatedDesc (noteIds.filterMap st.notes.get)
    let html := sortedNotes.map
      (fun note => { note := note, isActive := decide (some note.id = st.currentNoteId) })
    { entries := some html
      currentPageTitle :=
        match nameInStore st.notes st.currentNoteId with
        | some k =>
          (st.notes.get k).map
            (fun n => if n.title.length > 20 then n.title.take 20 ++ lit "..." else n.title)
        | none => none }

/-- The function `Canonicalize` of a regular expression with the flag `i` and
without the flag `u`, on a code unit below 128: a lower-case letter becomes
the upper-case one. A code unit from 128 on is mapped to a code unit from 128
on; which one plays no part in a comparison with ASCII characters, and it is
left as it is here. -/
def canonicalize (c : Nat) : Nat := if 97 ≤ c ∧ c ≤ 122 then c - 32 else c

/-- The members of the class `a-z0-9`: the code units 97 to 122 and 48 to 57. -/
def classMembers : List Nat := (List.range 26).map (fun n => 97 + n) ++
  (List.range 10).map (fun n => 48 + n)

/-- Tells that a code unit is matched by `[^a-z0-9]` under the flag `i`: no
member of the class has the same canonical form. -/
def matchesNonAlnum (c : Nat) : Bool :=
  !(classMembers.any (fun a => canonicalize a == canonicalize c))

/-- The call `title.replace(/[^a-z0-9]/gi, '_')`: every code unit the class
matches is replaced by `_` (code unit 95). -/
def replaceNonAlnum (s : JSString) : JSString :=
  s.map (fun c => if matchesNonAlnum c then 95 else c)

/-- The method `toLowerCase` on a string of ASCII code units, the only strings
it is applied to here: the letters `A` to `Z` become `a` to `z`. -/
def toLowerCase (s : JSString) : JSString :=
  s.map (fun c => if 65 ≤ c ∧ c ≤ 90 then c + 32 else c)

/-- What `clientSideDownload` hands to the browser: the name of the file, the
content of the blob and its type. -/
structure Download where
  filename : JSString
  content : JSString
  mimeType : JSString
  deriving DecidableEq

/-- The function `clientSideDownload`. -/
def clientSideDownload (note : Note) (format : JSString) : Download :=
  { filename := toLowerCase (replaceNonAlnum note.title) ++ lit "." ++ format
    content := note.content
    mimeType := if format = lit "md" then lit "text/markdown" else lit "text/plain" }

/-! ## Specification-side definitions -/

/-- The title rule applied to one trimmed, non-empty line: the line itself when
it has at most 50 characters, else its first 50 characters and an ellipsis. -/
def titleOfLine (line : JSString) : JSString :=
  if line.length ≤ 50 then line else line.take 50 ++ lit "..."

/-- The first line of the content that contains a non-white-space character,
trimmed; `none` when every line is blank. -/
def firstNonEmptyLine (content : JSString) : Option JSString :=
  ((splitLines content).map trim).find? (fun l => decide (l ≠ []))

/-- The number of maximal runs of non-white-space characters: the positions
that hold a non-white-space character and follow white space or the start.
`prevWs` tells that the position before the list is white space or the start. -/
def countRuns : Bool → JSString → Nat
  | _, [] => 0
  | prevWs, c :: cs =>
    (if prevWs && !(isWhiteSpace c) then 1 else 0) + countRuns (isWhiteSpace c) cs

/-- The number of maximal runs of non-white-space characters of a string. -/
def wordRuns (s : JSString) : Nat := countRuns true s

/-- An ASCII letter or digit: `0` to `9`, `A` to `Z`, `a` to `z`. -/
def isAsciiAlnum (c : Nat) : Bool :=
  (48 ≤ c && c ≤ 57) || (65 ≤ c && c ≤ 90) || (97 ≤ c && c ≤ 122)

/-- A lower-case ASCII letter, a digit or `_`. -/
def isLowerDigitUnderscore (c : Nat) : Bool :=
  (97 ≤ c && c ≤ 122) || (48 ≤ c && c ≤ 57) || c == 95

/-- The character a sanitised title has where the title has `c`: `c` in lower
case when `c` is an ASCII letter or digit, `_` otherwise. -/
def sanitisedUnit (c : Nat) : Nat :=
  if isAsciiAlnum c then (if 65 ≤ c ∧ c ≤ 90 then c + 32 else c) else 95

/-! ## State predicates -/

/-- Every entry of the store has an `id` field equal to the key it is stored
under. -/
def KeysMatchIds (s : Store) : Prop := ∀ e ∈ s, e.2.id = e.1

instance (s : Store) : Decidable (KeysMatchIds s) :=
  inferInstanceAs (Decidable (∀ e ∈ s, e.2.id = e.1))

/-- The current note id is set and is a key of the store in memory. -/
def CurrentIsKey (st : AppState) : Prop :=
  ∃ k, st.currentNoteId = some k ∧ k ∈ st.notes.keys

/-- The current note id is unset or a key of the store in memory. -/
def CurrentInStore (st : AppState) : Prop :=
  ∀ k, st.currentNoteId = some k → k ∈ st.notes.keys

/-- The states from which the current note id stays in the store: it is unset or names an entry of
the store, and every entry of the store, in memory and as persisted, has an
`id` field equal to its key. -/
def Consistent (st : AppState) : Prop :=
  CurrentInStore st ∧ KeysMatchIds st.notes ∧ KeysMatchIds (loadNotesFromStorage st).notes

/-! ## Sample data -/

/-- A sample identifier. -/
def sampleIdA : NoteId := ⟨lit "note_1_a", by decide⟩

/-- A second sample identifier. -/
def sampleIdB : NoteId := ⟨lit "note_2_b", by decide⟩

/-- A sample note, stored under `sampleIdA`, last updated at time 1. -/
def sampleNoteA : Note :=
  { id := sampleIdA, title := lit "A", content := lit "A", createdAt := 1, updatedAt := 1 }

/-- A sample note, stored under `sampleIdB`, last updated at time 2. -/
def sampleNoteB : Note :=
  { id := sampleIdB, title := lit "B", content := lit "B", createdAt := 2, updatedAt := 2 }

/-- A sample store: the notes A and B, B the more recent. -/
def sampleStore : Store := [(sampleIdA, sampleNoteA), (sampleIdB, sampleNoteB)]

/-- Sample readings: the clock shows 3, the random suffix is `c`, the user
confirms. -/
def sampleEnv : Env :=
  { dateNow := 3, random := lit "c", now := 3, nowAgain := 3, confirm := true }

/-- The state of a page that opens on `?note=note_1_a` with the sample store
persisted and B as the note edited last. -/
def sampleState : AppState :=
  { currentNoteId := none, notes := [], storedNotes := .json sampleStore,
    lastNote := some sampleIdB, urlNote := some sampleIdA, confirmCount := 0 }

/-- The state of a page that opens with nothing in `localStorage`. -/
def freshState : AppState :=
  { currentNoteId := none, notes := [], storedNotes := .absent,
    lastNote := none, urlNote := none, confirmCount := 0 }

/-- The state after the sample store was loaded and note A selected. -/
def editingState : AppState :=
  { currentNoteId := some sampleIdA, notes := sampleStore, storedNotes := .json sampleStore,
    lastNote := some sampleIdA, urlNote := some sampleIdA, confirmCount := 0 }

/-- A third sample identifier. -/
def sampleIdC : NoteId := ⟨lit "note_9_z", by decide⟩

/-- A note whose `id` field is not the key `sampleIdB` it is stored under in
`mismatchedState`. -/
def sampleNoteC : Note :=
  { id := sampleIdC, title := lit "C", content := lit "C", createdAt := 2, updatedAt := 2 }

/-- A state whose second entry is stored under a key that is not its `id`
field; note A is current. -/
def mismatchedState : AppState :=
  { currentNoteId := some sampleIdA,
    notes := [(sampleIdA, sampleNoteA), (sampleIdB, sampleNoteC)],
    storedNotes := .json [(sampleIdA, sampleNoteA), (sampleIdB, sampleNoteC)],
    lastNote := some sampleIdA, urlNote := some sampleIdA, confirmCount := 0 }

/-- A state whose only note is stored under the identifier the generator
returns for the readings `sampleEnv`; that note is current. -/
def recycledIdState : AppState :=
  { currentNoteId := some (generateNoteId 3 (lit "c")),
    notes := [(generateNoteId 3 (lit "c"),
      { id := generateNoteId 3 (lit "c"), title := lit "A", content := lit "A",
        createdAt := 3, updatedAt := 3 })],
    storedNotes := .absent, lastNote := none, urlNote := none, confirmCount := 0 }

/-- The sample store loaded, with no current note id yet. -/
def unselectedState : AppState :=
  { currentNoteId := none, notes := sampleStore, storedNotes := .json sampleStore,
    lastNote := none, urlNote := none, confirmCount := 0 }

/-- A state whose store in memory is empty while the persisted store holds a
note under a key that is not its `id` field. -/
def staleState : AppState :=
  { currentNoteId := none, notes := [],
    storedNotes := .json [(sampleIdB, sampleNoteC)],
    lastNote := none, urlNote := none, confirmCount := 0 }

/-- A sample note with a title of mixed characters. -/
def sampleNoteD : Note :=
  { id := sampleIdC, title := lit "My Note: v2!", content := lit "x", createdAt := 1,
    updatedAt := 1 }

/-! ## The program on every identifier, with a storage that may reject a write

The definitions above take note identifiers from `NoteId` and let every write
to `localStorage` succeed. The namespace `Raw` embeds the same functions of
`app.js` without these two restrictions: an identifier is any string, a
property read `notes[id]` goes through the prototype chain of `notes`, the
assignment `notes['__proto__'] = ...` replaces that prototype, and `setItem`
may throw. A function of `Raw` returns the state the handler leaves, whether
it returns or is ended by an exception. -/

namespace Raw

/-- A primitive string met as a property value: a given text, or the ISO text
of a date, which is kept as the date. -/
inductive PrimText where
  | chars (s : JSString)
  | isoDate (ms : Nat)
  deriving DecidableEq

/-- A record stored in `notes`. The program writes records with and without
`id` and `createdAt` (the spread `{...notes[id], title, content, updatedAt}`
of a value that is no note has neither); `indexed` holds the properties `0`,
`1`, ... the spread of a primitive string leaves. -/
structure NoteRec where
  id : Option JSString
  title : JSString
  content : JSString
  createdAt : Option Nat
  updatedAt : Nat
  indexed : Option PrimText
  deriving DecidableEq

/-- The record `{ title, content, updatedAt }` that an assignment to
`notes['__proto__']` installs as the prototype of `notes`. -/
structure ProtoRec where
  title : JSString
  content : JSString
  updatedAt : Nat
  deriving DecidableEq

/-- The object `notes`: its own properties in enumeration order, and its
prototype: `none` for `Object.prototype`, `some p` for a record `p` (whose
prototype is `Object.prototype`). -/
structure NotesObj where
  own : List (JSString × NoteRec)
  proto : Option ProtoRec
  deriving DecidableEq

/-- The value of a property read `notes[k]`. -/
inductive Value where
  | record (r : NoteRec)
  | protoRecord (p : ProtoRec)
  | text (t : PrimText)
  | builtin
  | undefined
  deriving DecidableEq

/-- The truth value of a property value: objects and functions are true, a
string is true when it is not empty, `undefined` is false. -/
def Value.truthy : Value → Bool
  | .record _ => true
  | .protoRecord _ => true
  | .text (.chars s) => s != []
  | .text (.isoDate _) => true
  | .builtin => true
  | .undefined => false

/-- The property read `notes[k]`: an own property; else a property of the
record installed as prototype, or that record itself for `__proto__`; else a
member of `Object.prototype`; else `undefined`. -/
def NotesObj.read (o : NotesObj) (k : JSString) : Value :=
  match o.own.lookup k with
  | some r => .record r
  | none =>
    match o.proto with
    | some p =>
      if k = lit "title" then .text (.chars p.title)
      else if k = lit "content" then .text (.chars p.content)
      else if k = lit "updatedAt" then .text (.isoDate p.updatedAt)
      else if k = lit "__proto__" then .protoRecord p
      else if objectPrototypeNames.contains k then .builtin
      else .undefined
    | none => if objectPrototypeNames.contains k then .builtin else .undefined

/-- The array index a property key denotes, if any: a decimal numeral without
leading zero, at most `2^32 - 2`. -/
def arrayIndex (k : JSString) : Option Nat :=
  if k = [] then none
  else if k.all (fun c => 48 ≤ c && c ≤ 57) then
    if k.head? = some 48 ∧ k.length > 1 then none
    else if k.foldl (fun acc c => 10 * acc + (c - 48)) 0 ≤ 4294967294
    then some (k.foldl (fun acc c => 10 * acc + (c - 48)) 0)
    else none
  else none

/-- The place a new property with the array index `n` takes: array indices
come first, in increasing order. -/
def insertIndexed (n : Nat) (k : JSString) (r : NoteRec) :
    List (JSString × NoteRec) → List (JSString × NoteRec)
  | [] => [(k, r)]
  | e :: rest =>
    match arrayIndex e.1 with
    | some m => if n < m then (k, r) :: e :: rest else e :: insertIndexed n k r rest
    | none => (k, r) :: e :: rest

/-- The definition of the own property `k`: the value of an existing property
is replaced in place; a new property is enumerated among the array indices
when its key is one, and last when it is not. -/
def setOwn (own : List (JSString × NoteRec)) (k : JSString) (r : NoteRec) :
    List (JSString × NoteRec) :=
  if (own.lookup k).isSome then own.map (fun e => if e.1 = k then (k, r) else e)
  else
    match arrayIndex k with
    | some n => insertIndexed n k r own
    | none => own ++ [(k, r)]

/-- The assignment `notes[k] = r`. An own property is set. Without an own
property `__proto__`, the assignment to that name runs the setter of
`Object.prototype` and makes `r` the prototype of `notes`; the program assigns
there only the spread of the prototype, a record of three fields. Under any
other name a new own property is defined. -/
def NotesObj.assign (o : NotesObj) (k : JSString) (r : NoteRec) : NotesObj :=
  if (o.own.lookup k).isSome then { o with own := setOwn o.own k r }
  else if k = lit "__proto__" then
    { o with proto := some { title := r.title, content := r.content, updatedAt := r.updatedAt } }
  else { o with own := setOwn o.own k r }

/-- The object literal `{ ...v, title, content, updatedAt }`: the spread of a
note record keeps its other fields, the spread of a primitive string leaves
its characters as indexed properties, the spread of a function or of
`Object.prototype` leaves nothing. -/
def spreadWith (v : Value) (title content : JSString) (now : Nat) : NoteRec :=
  match v with
  | .record old => { old with title := title, content := content, updatedAt := now }
  | .text t =>
    { id := none, title := title, content := content, createdAt := none, updatedAt := now,
      indexed := some t }
  | _ =>
    { id := none, title := title, content := content, createdAt := none, updatedAt := now,
      indexed := none }

/-- The statement `delete notes[k]`: an own property is removed, anything else
is left. -/
def NotesObj.delete (o : NotesObj) (k : JSString) : NotesObj :=
  { o with own := o.own.filter (fun e => decide (e.1 ≠ k)) }

/-- The list `Object.keys(notes)`. -/
def NotesObj.keys (o : NotesObj) : List JSString := o.own.map Prod.fst

/-- The expression `Object.keys(notes).map(id => notes[id])`. -/
def getAllNotes (o : NotesObj) : List NoteRec := o.keys.filterMap o.own.lookup

/-- The order given to `sort`: `a` before `b` when `a` is the more recent. -/
def moreRecent (a b : NoteRec) : Prop := b.updatedAt ≤ a.updatedAt

instance : DecidableRel moreRecent := fun a b => Nat.decLe b.updatedAt a.updatedAt

instance : IsTotal NoteRec moreRecent := ⟨fun a b => Nat.le_total b.updatedAt a.updatedAt⟩

instance : IsTrans NoteRec moreRecent := ⟨fun _ _ _ hab hbc => Nat.le_trans hbc hab⟩

/-- The stable sort by decreasing `updatedAt`. -/
def sortByUpdatedDesc (l : List NoteRec) : List NoteRec := l.insertionSort moreRecent

/-- The truth value of an identifier variable: `null`, `undefined` (both
`none`) and the empty string are false. -/
def truthyId : Option JSString → Bool
  | some s => s != []
  | none => false

/-- The string an identifier becomes as a property key or URL value;
`undefined` (the `id` of a record without one) becomes `undefined`. -/
def keyText : Option JSString → JSString
  | some s => s
  | none => lit "undefined"

/-- The conversion of a string to a sequence of Unicode scalar values, which
`URLSearchParams` applies: a surrogate that is not part of a pair becomes
U+FFFD. -/
def toUSV : JSString → JSString
  | [] => []
  | [c] => if 55296 ≤ c ∧ c ≤ 57343 then [65533] else [c]
  | c :: d :: rest =>
    if (55296 ≤ c ∧ c ≤ 56319) ∧ (56320 ≤ d ∧ d ≤ 57343) then c :: d :: toUSV rest
    else if 55296 ≤ c ∧ c ≤ 57343 then 65533 :: toUSV (d :: rest)
    else c :: toUSV (d :: rest)

/-- What `JSON.parse` makes of a text: a syntax error, an object of note
records (its own properties in enumeration order), or `null`. Other JSON
values are not covered. -/
inductive Parsed where
  | syntaxError
  | object (own : List (JSString × NoteRec))
  | null
  deriving DecidableEq

/-- The state the program keeps between two events. -/
structure State where
  /-- The global variable `currentNoteId`; `none` is `null` or `undefined`. -/
  currentNoteId : Option JSString
  /-- The global variable `notes`; `none` is `null`. -/
  notes : Option NotesObj
  /-- The text of the slot `blankpage_notes` of `localStorage`. -/
  storedNotes : Option JSString
  /-- The text of the slot `blankpage_last_note` of `localStorage`. -/
  lastNote : Option JSString
  /-- The `note` parameter of the query string of the page. -/
  urlNote : Option JSString
  /-- How many times the `confirm` dialog has been shown. -/
  confirmCount : Nat
  deriving DecidableEq

/-- What one event handler gets from outside the state. -/
structure Env where
  /-- The value of `Date.now()` in `generateNoteId`. -/
  dateNow : Nat
  /-- The base-36 digits of `Math.random().toString(36).substr(2, 9)`. -/
  random : List (Fin 36)
  /-- The value of `new Date()`. -/
  now : Nat
  /-- The value of the second `new Date()` of `createFirstNote`. -/
  nowAgain : Nat
  /-- The answer of the user to `confirm`. -/
  confirm : Bool
  /-- Tells that the first `setItem` of the slot `blankpage_notes` is accepted. -/
  notesWriteOk : Bool
  /-- Tells that a second `setItem` of that slot in the same handler is
  accepted. -/
  notesWriteAgainOk : Bool
  /-- Tells that the `setItem` of the slot `blankpage_last_note` is accepted. -/
  markerWriteOk : Bool
  /-- The function `JSON.parse` on the texts of the slot. -/
  jsonParse : JSString → Parsed
  /-- The function `JSON.stringify` on the own properties of `notes`. -/
  jsonStringify : List (JSString × NoteRec) → JSString

/-- The character of a base-36 digit: `0` to `9`, `a` to `z`. -/
def base36Digit (d : Fin 36) : Nat := if d.val < 10 then 48 + d.val else 87 + d.val

/-- The function `generateNoteId`. -/
def generateNoteId (dateNow : Nat) (random : List (Fin 36)) : JSString :=
  lit "note_" ++ lit (toString dateNow) ++ lit "_" ++ random.map base36Digit

/-- The function `loadNotesFromStorage`. -/
def loadNotesFromStorage (st : State) (env : Env) : State :=
  match st.storedNotes with
  | none => { st with notes := some { own := [], proto := none } }
  | some stored =>
    if stored = [] then { st with notes := some { own := [], proto := none } }
    else
      match env.jsonParse stored with
      | .object own => { st with notes := some { own := own, proto := none } }
      | .null => { st with notes := none }
      | .syntaxError => { st with notes := some { own := [], proto := none } }

/-- The function `saveNotesToStorage`: when `setItem` throws, the exception is
caught and logged and the slot is left as it was. -/
def saveNotesToStorage (st : State) (env : Env) (accepted : Bool) : State :=
  if accepted then
    match st.notes with
    | some o => { st with storedNotes := some (env.jsonStringify o.own) }
    | none => { st with storedNotes := some (lit "null") }
  else st

/-- The function `updateUrlForNote`. -/
def updateUrlForNote (st : State) (noteId : Option JSString) : State :=
  { st with urlNote := some (toUSV (keyText noteId)) }

/-- The guard `id && notes[id]`. -/
def passesGuard (o : NotesObj) (id : Option JSString) : Bool :=
  truthyId id && (o.read (keyText id)).truthy

/-- The create-or-update step of `saveToLocalStorage`. -/
def upsert (o : NotesObj) (id : JSString) (content : JSString) (now : Nat) : NotesObj :=
  let title := getNoteTitleFromContent content
  if !(o.read id).truthy then
    o.assign id
      { id := some id, title := title, content := content, createdAt := some now,
        updatedAt := now, indexed := none }
  else o.assign id (spreadWith (o.read id) title content now)

/-- The first step of `saveToLocalStorage`: the current note id, or a new
identifier when there is none (`if (!currentNoteId)`). -/
def ensureNoteId (st : State) (env : Env) : JSString :=
  match st.currentNoteId with
  | some i => if i = [] then generateNoteId env.dateNow env.random else i
  | none => generateNoteId env.dateNow env.random

/-- The function `saveToLocalStorage`. With `notes` being `null` the read
`notes[currentNoteId]` throws; when the `setItem` of the marker throws, the
function ends there, before the URL is brought in line. -/
def saveToLocalStorage (st : State) (env : Env) (content : JSString) : State :=
  let id := ensureNoteId st env
  let st1 := { st with currentNoteId := some id }
  match st1.notes with
  | none => st1
  | some o =>
    let st2 :=
      saveNotesToStorage { st1 with notes := some (upsert o id content env.now) } env
        env.notesWriteOk
    if env.markerWriteOk then
      let st3 := { st2 with lastNote := some id }
      if st3.urlNote ≠ some id then updateUrlForNote st3 (some id) else st3
    else st2

/-- The function `handleTextareaInput`. -/
def handleTextareaInput (st : State) (env : Env) (content : JSString) : State :=
  if truthyId st.currentNoteId then saveToLocalStorage st env content
  else if truthyId st.urlNote then
    match st.notes with
    | none => st
    | some o =>
      if (o.read (keyText st.urlNote)).truthy then
        saveToLocalStorage { st with currentNoteId := st.urlNote } env content
      else
        saveToLocalStorage
          { st with currentNoteId := some (generateNoteId env.dateNow env.random) } env content
  else
    saveToLocalStorage
      { st with currentNoteId := some (generateNoteId env.dateNow env.random) } env content

/-- The function `createFirstNote`. -/
def createFirstNote (st : State) (env : Env) : State :=
  let id := generateNoteId env.dateNow env.random
  let note : NoteRec :=
    { id := some id
      title := lit "Welcome to blank.ashref.tn"
      content := lit "Welcome to blank.ashref.tn\n\nStart typing to create your first note..."
      createdAt := some env.now
      updatedAt := env.nowAgain
      indexed := none }
  let st1 := { st with currentNoteId := some id }
  match st1.notes with
  | none => st1
  | some o =>
    updateUrlForNote
      (saveNotesToStorage { st1 with notes := some (o.assign id note) } env env.notesWriteOk)
      (some id)

/-- The function `createNewNote`. -/
def createNewNote (st : State) (env : Env) : State :=
  let id := generateNoteId env.dateNow env.random
  let newNote : NoteRec :=
    { id := some id, title := lit "Untitled", content := [], createdAt := some env.now,
      updatedAt := env.now, indexed := none }
  let st1 := { st with currentNoteId := some id }
  match st1.notes with
  | none => st1
  | some o =>
    updateUrlForNote
      (saveNotesToStorage { st1 with notes := some (o.assign id newNote) } env env.notesWriteOk)
      (some id)

/-- The function `switchToNote`. -/
def switchToNote (st : State) (noteId : Option JSString) : State :=
  match st.notes with
  | none => st
  | some o =>
    if (o.read (keyText noteId)).truthy then
      updateUrlForNote { st with currentNoteId := noteId } noteId
    else st

/-- The function `deleteNote`. -/
def deleteNote (st : State) (env : Env) (noteId : JSString) : State :=
  if noteId = [] then st
  else
    match st.notes with
    | none => st
    | some o =>
      if !(o.read noteId).truthy then st
      else
        let st0 := { st with confirmCount := st.confirmCount + 1 }
        if env.confirm then
          let o1 := o.delete noteId
          let st1 := saveNotesToStorage { st0 with notes := some o1 } env env.notesWriteOk
          if st1.currentNoteId = some noteId then
            let remainingNotes := o1.keys
            if remainingNotes.length > 0 then
              match sortByUpdatedDesc (remainingNotes.filterMap o1.own.lookup) with
              | latestNote :: _ => switchToNote st1 latestNote.id
              | [] => st1
            else createNewNote st1 { env with notesWriteOk := env.notesWriteAgainOk }
          else st1
        else st0

/-- The function `loadCurrentNote`. -/
def loadCurrentNote (st : State) (env : Env) : State :=
  let st1 := loadNotesFromStorage st env
  match st1.notes with
  | none => st1
  | some o =>
    let allNotes := getAllNotes o
    if allNotes.length = 0 then createFirstNote st1 env
    else if passesGuard o st1.urlNote then { st1 with currentNoteId := st1.urlNote }
    else if passesGuard o st1.lastNote then
      updateUrlForNote { st1 with currentNoteId := st1.lastNote } st1.lastNote
    else if allNotes.length > 0 then
      match sortByUpdatedDesc allNotes with
      | mostRecentNote :: _ =>
        updateUrlForNote { st1 with currentNoteId := mostRecentNote.id } mostRecentNote.id
      | [] => st1
    else st1

/-- Every entry of the store has an `id` field equal to the key it is stored
under. -/
def KeysMatchIds (own : List (JSString × NoteRec)) : Prop := ∀ e ∈ own, e.2.id = some e.1

instance (own : List (JSString × NoteRec)) : Decidable (KeysMatchIds own) :=
  inferInstanceAs (Decidable (∀ e ∈ own, e.2.id = some e.1))

/-- The current note id is set and is a key of the store in memory. -/
def CurrentIsKey (st : State) : Prop :=
  ∃ o k, st.notes = some o ∧ st.currentNoteId = some k ∧ k ∈ o.keys

/-- The current note id is unset or a key of the store in memory. -/
def CurrentInStore (st : State) : Prop :=
  ∀ k, st.currentNoteId = some k → ∃ o, st.notes = some o ∧ k ∈ o.keys

/-- The states of claim C8: `notes` is an object with its original prototype,
the current note id is unset or a key of it, and every entry of the store, in
memory and as persisted, has an `id` field equal to its key. -/
def Consistent (st : State) (env : Env) : Prop :=
  (∃ o, st.notes = some o ∧ o.proto = none ∧ KeysMatchIds o.own ∧
    ∀ k, st.currentNoteId = some k → k ∈ o.keys) ∧
  ∃ stored, (loadNotesFromStorage st env).notes = some { own := stored, proto := none } ∧
    KeysMatchIds stored

end Raw

/-! ## Sample data for the program on every identifier -/

namespace Raw

/-- The sample note A as a record, last updated at time 1. -/
def noteA : NoteRec :=
  { id := some (lit "note_1_a"), title := lit "A", content := lit "A", createdAt := some 1,
    updatedAt := 1, indexed := none }

/-- The sample note B as a record, last updated at time 2. -/
def noteB : NoteRec :=
  { id := some (lit "note_2_b"), title := lit "B", content := lit "B", createdAt := some 2,
    updatedAt := 2, indexed := none }

/-- A record whose `id` field is not the key `note_2_b` it is stored under in
`mismatchedOwn`. -/
def noteC : NoteRec :=
  { id := some (lit "note_9_z"), title := lit "C", content := lit "C", createdAt := some 2,
    updatedAt := 2, indexed := none }

/-- The own properties of the sample store: the notes A and B. -/
def sampleOwn : List (JSString × NoteRec) :=
  [(lit "note_1_a", noteA), (lit "note_2_b", noteB)]

/-- A store whose only entry is kept under a key that is not its `id` field. -/
def mismatchedOwn : List (JSString × NoteRec) := [(lit "note_2_b", noteC)]

/-- The JSON text of the sample store; the time `n` is written as the ISO
text of `n` milliseconds after the epoch. -/
def sampleText : JSString :=
  lit ("\x7b\"note_1_a\":\x7b\"id\":\"note_1_a\",\"title\":\"A\",\"content\":\"A\",\"cre" ++
    "atedAt\":\"1970-01-01T00:00:00.001Z\",\"updatedAt\":\"1970-01-01T00:00:00.001Z\"" ++
    "\x7d,\"note_2_b\":\x7b\"id\":\"note_2_b\",\"title\":\"B\",\"content\":\"B\",\"cr" ++
    "eatedAt\":\"1970-01-01T00:00:00.002Z\",\"updatedAt\":\"1970-01-01T00:00:00.002Z" ++
    "\"\x7d\x7d")

/-- The JSON text of `mismatchedOwn`. -/
def mismatchedText : JSString :=
  lit ("\x7b\"note_2_b\":\x7b\"id\":\"note_9_z\",\"title\":\"C\",\"content\":\"C\",\"cre" ++
    "atedAt\":\"1970-01-01T00:00:00.002Z\",\"updatedAt\":\"1970-01-01T00:00:00.002Z\"" ++
    "\x7d\x7d")

/-- The sample store after `Hi` was saved into note A at time 3. -/
def savedOwn : List (JSString × NoteRec) :=
  [(lit "note_1_a", { noteA with title := lit "Hi", content := lit "Hi", updatedAt := 3 }),
   (lit "note_2_b", noteB)]

/-- The JSON text of `savedOwn`. -/
def savedText : JSString :=
  lit ("\x7b\"note_1_a\":\x7b\"id\":\"note_1_a\",\"title\":\"Hi\",\"content\":\"Hi\",\"c" ++
    "reatedAt\":\"1970-01-01T00:00:00.001Z\",\"updatedAt\":\"1970-01-01T00:00:00.003Z" ++
    "\"\x7d,\"note_2_b\":\x7b\"id\":\"note_2_b\",\"title\":\"B\",\"content\":\"B\",\"" ++
    "createdAt\":\"1970-01-01T00:00:00.002Z\",\"updatedAt\":\"1970-01-01T00:00:00.002" ++
    "Z\"\x7d\x7d")

/-- The values of `JSON.parse` the samples need: the three sample texts are
read as the stores they are the JSON texts of; of any other text the samples
need no value, and it is taken as a syntax error. -/
def sampleParse (text : JSString) : Parsed :=
  if text = sampleText then .object sampleOwn
  else if text = mismatchedText then .object mismatchedOwn
  else if text = savedText then .object savedOwn
  else .syntaxError

/-- The values of `JSON.stringify` the samples need: the sample stores are
written as their JSON texts; the text of any other store is read back by no
sample, and lists the keys of the store. -/
def sampleStringify (own : List (JSString × NoteRec)) : JSString :=
  if own = sampleOwn then sampleText
  else if own = savedOwn then savedText
  else lit "\x7b" ++ (own.map Prod.fst).foldr (fun k acc => k ++ lit "," ++ acc) (lit "\x7d")

/-- Sample readings: the clock shows 3, the random suffix is `c`, the user
confirms, every write is accepted. -/
def sampleEnv : Env :=
  { dateNow := 3, random := [12], now := 3, nowAgain := 3, confirm := true,
    notesWriteOk := true, notesWriteAgainOk := true, markerWriteOk := true,
    jsonParse := sampleParse, jsonStringify := sampleStringify }

/-- The sample readings with a storage that rejects every write. -/
def fullStorageEnv : Env :=
  { sampleEnv with notesWriteOk := false, notesWriteAgainOk := false, markerWriteOk := false }

/-- The state of a page that opens on `?note=constructor` with the sample
store persisted and B as the note edited last. -/
def constructorUrlState : State :=
  { currentNoteId := none, notes := some { own := [], proto := none },
    storedNotes := some sampleText, lastNote := some (lit "note_2_b"),
    urlNote := some (lit "constructor"), confirmCount := 0 }

/-- The state `loadCurrentNote` leaves from `constructorUrlState`: the sample
store loaded and `constructor` as current note id. -/
def constructorCurrentState : State :=
  { currentNoteId := some (lit "constructor"), notes := some { own := sampleOwn, proto := none },
    storedNotes := some sampleText, lastNote := some (lit "note_2_b"),
    urlNote := some (lit "constructor"), confirmCount := 0 }

/-- The state of a page opened on `?note=__proto__` after `loadCurrentNote`:
the sample store loaded and `__proto__` as current note id. -/
def protoCurrentState : State :=
  { currentNoteId := some (lit "__proto__"), notes := some { own := sampleOwn, proto := none },
    storedNotes := some sampleText, lastNote := some (lit "note_2_b"),
    urlNote := some (lit "__proto__"), confirmCount := 0 }

/-- The sample store loaded, note A current, no `note` parameter in the URL
and no marker yet. -/
def editingState : State :=
  { currentNoteId := some (lit "note_1_a"), notes := some { own := sampleOwn, proto := none },
    storedNotes := some sampleText, lastNote := none, urlNote := none, confirmCount := 0 }

/-- The state of a page that opens with nothing in `localStorage`. -/
def freshState : State :=
  { currentNoteId := none, notes := some { own := [], proto := none }, storedNotes := none,
    lastNote := none, urlNote := none, confirmCount := 0 }

/-- The sample store loaded, with no current note id. -/
def unselectedState : State :=
  { currentNoteId := none, notes := some { own := sampleOwn, proto := none },
    storedNotes := some sampleText, lastNote := none, urlNote := none, confirmCount := 0 }

/-- A state whose store in memory is empty while the persisted store holds a
note under a key that is not its `id` field. -/
def staleState : State :=
  { currentNoteId := none, notes := some { own := [], proto := none },
    storedNotes := some mismatchedText, lastNote := none, urlNote := none, confirmCount := 0 }

/-- The state of a page that opens on `?note=constructor` with the sample
store persisted and no marker. -/
def constructorOnlyUrlState : State :=
  { constructorUrlState with lastNote := none }

/-- The welcome note `createFirstNote` builds with the readings `env`. -/
def welcomeNote (env : Env) : NoteRec :=
  { id := some (generateNoteId env.dateNow env.random)
    title := lit "Welcome to blank.ashref.tn"
    content := lit "Welcome to blank.ashref.tn\n\nStart typing to create your first note..."
    createdAt := some env.now
    updatedAt := env.nowAgain
    indexed := none }

end Raw

/-! ## Strings: lemmas -/

theorem trim_eq_nil_iff (s : JSString) :
    trim s = [] ↔ ∀ c ∈ s, isWhiteSpace c = true := by
  unfold trim
  rw [List.rdropWhile_eq_nil_iff]
  constructor
  · intro h
    have hd : s.dropWhile isWhiteSpace = [] := by
      cases hs : s.dropWhile isWhiteSpace with
      | nil => rfl
      | cons a t =>
        have hne : s.dropWhile isWhiteSpace ≠ [] := by simp [hs]
        have h1 := List.head_dropWhile_not isWhiteSpace s hne
        have h2 : isWhiteSpace ((s.dropWhile isWhiteSpace).head hne) = true :=
          h _ (List.head_mem hne)
        simp [h1] at h2
    exact List.dropWhile_eq_nil_iff.mp hd
  · intro h c hc
    exact h c ((List.dropWhile_suffix isWhiteSpace).subset hc)

theorem splitLines_eq_cons (s : JSString) :
    ∃ t, splitLines s = s.takeWhile (fun c => c != 10) :: t := by
  induction s with
  | nil => exact ⟨[], rfl⟩
  | cons c cs ih =>
    obtain ⟨t, ht⟩ := ih
    by_cases hc : c = 10
    · exact ⟨splitLines cs, by simp [splitLines, hc]⟩
    · exact ⟨t, by simp [splitLines, hc, ht]⟩

theorem splitLines_headD (s : JSString) :
    (splitLines s).headD [] = s.takeWhile (fun c => c != 10) := by
  obtain ⟨t, ht⟩ := splitLines_eq_cons s
  simp [ht]

/-- The title of a content whose first line is not blank: the rule
`titleOfLine` applied to that line, trimmed. -/
theorem title_of_first_line (content : JSString)
    (h : trim (content.takeWhile (fun c => c != 10)) ≠ []) :
    getNoteTitleFromContent content
      = titleOfLine (trim (content.takeWhile (fun c => c != 10))) := by
  have hex : ∃ c ∈ content.takeWhile (fun c => c != 10), isWhiteSpace c ≠ true := by
    by_contra hno
    push_neg at hno
    exact h ((trim_eq_nil_iff _).mpr hno)
  obtain ⟨c, hc, hws⟩ := hex
  have hmem : c ∈ content := (List.takeWhile_prefix _).subset hc
  have h1 : content ≠ [] := List.ne_nil_of_mem hmem
  have h2 : trim content ≠ [] := fun h0 => hws ((trim_eq_nil_iff _).mp h0 c hmem)
  have h3 : (trim (content.takeWhile (fun c => c != 10))).length ≠ 0 := by
    simpa [List.length_eq_zero] using h
  unfold getNoteTitleFromContent titleOfLine
  rw [splitLines_headD]
  simp only [h1, h2, or_self, if_false, h3]
  by_cases hl : (trim (content.takeWhile (fun c => c != 10))).length ≤ 50
  · simp [hl, Nat.not_lt.mpr hl]
  · simp [hl, Nat.lt_of_not_le hl]

/-- The title of a content whose first line is blank. -/
theorem title_of_blank_first_line (content : JSString)
    (h : trim (content.takeWhile (fun c => c != 10)) = []) :
    getNoteTitleFromContent content = lit "Untitled" := by
  unfold getNoteTitleFromContent
  rw [splitLines_headD, h]
  simp

theorem firstNonEmptyLine_of_first_line (content : JSString)
    (h : trim (content.takeWhile (fun c => c != 10)) ≠ []) :
    firstNonEmptyLine content = some (trim (content.takeWhile (fun c => c != 10))) := by
  obtain ⟨t, ht⟩ := splitLines_eq_cons content
  simp [firstNonEmptyLine, ht, h]

theorem countRuns_dropWhile (s : JSString) :
    countRuns true (s.dropWhile isWhiteSpace) = countRuns true s := by
  induction s with
  | nil => rfl
  | cons c cs ih =>
    by_cases hc : isWhiteSpace c = true
    · simp [List.dropWhile, hc, countRuns, ih]
    · simp [List.dropWhile, hc]

theorem countRuns_append_whiteSpace (c : Nat) (hc : isWhiteSpace c = true) :
    ∀ (b : Bool) (s : JSString), countRuns b (s ++ [c]) = countRuns b s := by
  intro b s
  induction s generalizing b with
  | nil => simp [countRuns, hc]
  | cons d ds ih => simp [countRuns, ih]

theorem countRuns_rdropWhile (b : Bool) (s : JSString) :
    countRuns b (s.rdropWhile isWhiteSpace) = countRuns b s := by
  induction s using List.reverseRecOn with
  | nil => rfl
  | append_singleton l a ih =>
    by_cases ha : isWhiteSpace a = true
    · rw [List.rdropWhile_concat_pos _ _ _ ha, ih, countRuns_append_whiteSpace a ha]
    · rw [List.rdropWhile_concat_neg _ _ _ ha]

theorem countRuns_trim (s : JSString) : countRuns true (trim s) = countRuns true s := by
  unfold trim
  rw [countRuns_rdropWhile, countRuns_dropWhile]

/-- The pieces of `split(/\s+/)` that are not empty are as many as the runs
of non-white-space characters still to come, plus the piece being read. -/
theorem splitWhiteSpaceAux_count (s : JSString) :
    ∀ (inSep : Bool) (acc : JSString), (inSep = true → acc = []) →
      ((splitWhiteSpaceAux inSep acc s).filter (fun word => decide (word.length > 0))).length
        = if acc = [] then countRuns true s else 1 + countRuns false s := by
  induction s with
  | nil =>
    intro inSep acc _
    by_cases ha : acc = []
    · simp [splitWhiteSpaceAux, countRuns, ha]
    · have : 0 < acc.length := List.length_pos.mpr ha
      simp [splitWhiteSpaceAux, countRuns, ha, this]
  | cons c cs ih =>
    intro inSep acc hacc
    by_cases hc : isWhiteSpace c = true
    · cases inSep with
      | true =>
        have ha : acc = [] := hacc rfl
        have := ih true [] (fun _ => rfl)
        simp only [if_true] at this
        simp [splitWhiteSpaceAux, hc, ha, countRuns, this]
      | false =>
        have := ih true [] (fun _ => rfl)
        simp only [if_true] at this
        by_cases ha : acc = []
        · simp [splitWhiteSpaceAux, hc, ha, countRuns, this]
        · have hpos : 0 < acc.length := List.length_pos.mpr ha
          simp [splitWhiteSpaceAux, hc, ha, countRuns, this, hpos]
          omega
    · have := ih false (c :: acc) (fun h => by cases h)
      simp only [List.cons_ne_nil, if_false] at this
      by_cases ha : acc = []
      · subst ha
        simpa [splitWhiteSpaceAux, hc, countRuns] using this
      · simpa [splitWhiteSpaceAux, hc, ha, countRuns] using this

theorem countRuns_eq_zero_iff (s : JSString) :
    countRuns true s = 0 ↔ ∀ c ∈ s, isWhiteSpace c = true := by
  induction s with
  | nil => simp [countRuns]
  | cons c cs ih =>
    by_cases hc : isWhiteSpace c = true
    · simp [countRuns, hc, ih]
    · simp [countRuns, hc]

theorem updateWordCount_eq (content : JSString) :
    updateWordCount content = (wordRuns content, content.length) := by
  have hcontent : (if content = [] then [] else content) = content := by
    by_cases h : content = [] <;> simp [h]
  unfold updateWordCount wordRuns
  simp only [hcontent]
  by_cases ht : trim content = []
  · have h0 : countRuns true content = 0 := by
      rw [← countRuns_trim, ht]; rfl
    simp [ht, h0]
  · have := splitWhiteSpaceAux_count (trim content) false [] (fun h => by cases h)
    simp only [if_true] at this
    simp only [ht, if_false, splitWhiteSpace, this, countRuns_trim]

/-! ## Claims on the derived display values -/

/-- C4, as the code has it: for every content string with a line that holds a
non-white-space character, `getNoteTitleFromContent` returns the title derived
from the first such line when that line is the first line of the content, and
`Untitled` when the first line of the content is blank. -/
theorem getNoteTitleFromContent_first_nonempty_line (content line : JSString)
    (h : firstNonEmptyLine content = some line) :
    getNoteTitleFromContent content
      = if trim (content.takeWhile (fun c => c != 10)) = [] then lit "Untitled"
        else titleOfLine line := by
  by_cases hb : trim (content.takeWhile (fun c => c != 10)) = []
  · rw [if_pos hb]
    exact title_of_blank_first_line content hb
  · rw [if_neg hb, title_of_first_line content hb]
    have := firstNonEmptyLine_of_first_line content hb
    rw [h] at this
    rw [Option.some.inj this]

/-- C4 at the content `"\nHello"`, whose first line is blank: the title is
`Untitled`. -/
theorem getNoteTitleFromContent_first_nonempty_line_witness :
    firstNonEmptyLine (lit "\nHello") = some (lit "Hello") ∧
    getNoteTitleFromContent (lit "\nHello") = lit "Untitled" :=
  ⟨by decide,
   (getNoteTitleFromContent_first_nonempty_line (lit "\nHello") (lit "Hello")
      (by decide)).trans (by decide)⟩

/-- C4 as stated fails: the content `"\nHello"` has the non-empty line
`Hello`, whose title is `Hello`, and `getNoteTitleFromContent` returns
`Untitled`. -/
theorem getNoteTitleFromContent_skips_no_blank_line :
    ¬ ∀ content line : JSString, firstNonEmptyLine content = some line →
        getNoteTitleFromContent content = titleOfLine line := by
  intro h
  exact absurd (h (lit "\nHello") (lit "Hello") (by decide)) (by decide)

/-- C5: for every content string whose first line (the text before the first
line feed), trimmed, is a non-empty string `L`, `getNoteTitleFromContent`
returns `L` when `L` has at most 50 characters, and the first 50 characters of
`L` followed by `...` when it has more. -/
theorem getNoteTitleFromContent_first_line (content : JSString)
    (h : trim (content.takeWhile (fun c => c != 10)) ≠ []) :
    getNoteTitleFromContent content
      = if (trim (content.takeWhile (fun c => c != 10))).length ≤ 50
        then trim (content.takeWhile (fun c => c != 10))
        else (trim (content.takeWhile (fun c => c != 10))).take 50 ++ lit "..." := by
  rw [title_of_first_line content h]
  rfl

/-- C5 at the two contents of the specification: `"Hello World\nmore text"`
gives `Hello World`, and 60 letters `a` give 50 letters `a` and `...`. -/
theorem getNoteTitleFromContent_first_line_witness :
    getNoteTitleFromContent (lit "Hello World\nmore text") = lit "Hello World" ∧
    getNoteTitleFromContent (List.replicate 60 97) = List.replicate 50 97 ++ lit "..." :=
  ⟨(getNoteTitleFromContent_first_line (lit "Hello World\nmore text")
      (by decide)).trans (by decide),
   (getNoteTitleFromContent_first_line (List.replicate 60 97) (by decide)).trans
      (by decide)⟩

/-- C6: for every content string, the word count of `updateWordCount` is the
number of maximal runs of non-white-space characters of the content, hence 0
exactly when the content is empty or white space only, and the character count
is the length of the content; `""` gives 0 words and 0 characters, `"a  b"`
gives 2 words and 4 characters. -/
theorem updateWordCount_counts_runs (content : JSString) :
    updateWordCount content = (wordRuns content, content.length) ∧
    ((updateWordCount content).1 = 0 ↔ ∀ c ∈ content, isWhiteSpace c = true) ∧
    updateWordCount (lit "") = (0, 0) ∧
    updateWordCount (lit "a  b") = (2, 4) := by
  refine ⟨updateWordCount_eq content, ?_, by decide, by decide⟩
  rw [updateWordCount_eq]
  exact countRuns_eq_zero_iff content

/-! ## The store: lemmas -/

theorem Store.get_nil (k : NoteId) : Store.get [] k = none := rfl

theorem Store.get_cons (k k0 : NoteId) (v : Note) (s : Store) :
    Store.get ((k0, v) :: s) k = if k = k0 then some v else Store.get s k := by
  unfold Store.get
  rw [List.lookup_cons]
  by_cases h : k = k0
  · simp [h]
  · have : (k == k0) = false := by simpa using h
    simp [h, this]

theorem Store.mem_keys_iff (s : Store) (k : NoteId) :
    k ∈ s.keys ↔ (s.get k).isSome = true := by
  induction s with
  | nil => simp [Store.keys, Store.get_nil]
  | cons e t ih =>
    obtain ⟨k0, v⟩ := e
    rw [Store.get_cons]
    by_cases h : k = k0
    · simp [Store.keys, h]
    · have ih2 : k ∈ List.map Prod.fst t ↔ (Store.get t k).isSome = true := ih
      simp [Store.keys, h, ih2]

theorem Store.mem_keys_of_get (s : Store) (k : NoteId) (n : Note) (h : s.get k = some n) :
    k ∈ s.keys := by
  rw [Store.mem_keys_iff, h]; rfl

theorem Store.mem_of_get (s : Store) (k : NoteId) (n : Note) (h : s.get k = some n) :
    (k, n) ∈ s := by
  induction s with
  | nil => simp [Store.get_nil] at h
  | cons e t ih =>
    obtain ⟨k0, v⟩ := e
    rw [Store.get_cons] at h
    by_cases hk : k = k0
    · simp only [hk, if_true, Option.some.injEq] at h
      simp [hk, h]
    · simp only [hk, if_false] at h
      exact List.mem_cons_of_mem _ (ih h)

theorem Store.get_map_set (s : Store) (k k1 : NoteId) (v : Note) :
    Store.get (s.map (fun e => if e.1 = k then (k, v) else e)) k1
      = if k1 = k then (s.get k).map (fun _ => v) else s.get k1 := by
  induction s with
  | nil => simp [Store.get_nil]
  | cons e t ih =>
    obtain ⟨k0, v0⟩ := e
    by_cases h0 : k0 = k
    · subst h0
      simp only [List.map_cons, if_true, Store.get_cons, ih]
      by_cases h1 : k1 = k0
      · simp [h1]
      · simp [h1]
    · simp only [List.map_cons, h0, if_false, Store.get_cons, ih]
      by_cases h1 : k1 = k
      · have : ¬ k = k0 := fun h => h0 h.symm
        simp [h1, this]
      · simp [h1]

theorem Store.get_append_singleton (s : Store) (k k1 : NoteId) (v : Note) :
    Store.get (s ++ [(k, v)]) k1
      = match s.get k1 with
        | some n => some n
        | none => if k1 = k then some v else none := by
  induction s with
  | nil => simp [Store.get_cons, Store.get_nil]
  | cons e t ih =>
    obtain ⟨k0, v0⟩ := e
    simp only [List.cons_append, Store.get_cons, ih]
    by_cases h : k1 = k0
    · simp [h]
    · simp [h]

theorem Store.get_set_self (s : Store) (k : NoteId) (v : Note) :
    (s.set k v).get k = some v := by
  unfold Store.set
  cases h : s.get k with
  | none => simp [Store.get_append_singleton, h]
  | some n => simp [Store.get_map_set, h]

theorem Store.get_set_of_ne (s : Store) (k k1 : NoteId) (v : Note) (hne : k1 ≠ k) :
    (s.set k v).get k1 = s.get k1 := by
  unfold Store.set
  cases h : s.get k with
  | none =>
    simp only [Option.isSome_none, Bool.false_eq_true, if_false, Store.get_append_singleton, hne]
    cases s.get k1 <;> rfl
  | some n => simp [Store.get_map_set, hne]

theorem Store.set_nil (k : NoteId) (v : Note) : Store.set [] k v = [(k, v)] := rfl

theorem Store.mem_keys_set_self (s : Store) (k : NoteId) (v : Note) :
    k ∈ (s.set k v).keys :=
  Store.mem_keys_of_get _ _ _ (Store.get_set_self s k v)

theorem Store.not_mem_keys_erase (s : Store) (k : NoteId) : k ∉ (s.erase k).keys := by
  simp [Store.keys, Store.erase, List.mem_filter]

theorem Store.get_erase_of_ne (s : Store) (k k1 : NoteId) (hne : k1 ≠ k) :
    (s.erase k).get k1 = s.get k1 := by
  induction s with
  | nil => rfl
  | cons e t ih =>
    obtain ⟨k0, v0⟩ := e
    by_cases h0 : k0 = k
    · have h1 : ¬ k1 = k0 := fun h => hne (h.trans h0)
      have hf : Store.erase ((k0, v0) :: t) k = Store.erase t k := by
        simp [Store.erase, h0]
      rw [hf, ih, Store.get_cons, if_neg h1]
    · have hf : Store.erase ((k0, v0) :: t) k = (k0, v0) :: Store.erase t k := by
        simp [Store.erase, h0]
      rw [hf, Store.get_cons, Store.get_cons, ih]

theorem Store.mem_erase (s : Store) (k : NoteId) (e : NoteId × Note) (h : e ∈ s.erase k) :
    e ∈ s := by
  unfold Store.erase at h
  exact (List.mem_filter.mp h).1

/-- The notes of a store are the values found under some key. -/
theorem mem_getAllNotes (s : Store) (n : Note) :
    n ∈ getAllNotes s ↔ ∃ k, s.get k = some n := by
  unfold getAllNotes
  rw [List.mem_filterMap]
  constructor
  · rintro ⟨k, _, hk⟩
    exact ⟨k, hk⟩
  · rintro ⟨k, hk⟩
    exact ⟨k, Store.mem_keys_of_get s k n hk, hk⟩

theorem getAllNotes_ne_nil (s : Store) (h : s ≠ []) : getAllNotes s ≠ [] := by
  cases s with
  | nil => exact absurd rfl h
  | cons e t =>
    obtain ⟨k0, v0⟩ := e
    have : v0 ∈ getAllNotes ((k0, v0) :: t) :=
      (mem_getAllNotes _ _).mpr ⟨k0, by simp [Store.get_cons]⟩
    exact List.ne_nil_of_mem this

theorem getAllNotes_nil : getAllNotes [] = [] := rfl

theorem getAllNotes_singleton (k : NoteId) (n : Note) : getAllNotes [(k, n)] = [n] := by
  simp [getAllNotes, Store.keys, Store.get_cons]

/-! ## The sort: lemmas -/

/-- The first note of the sorted list is a note of the list, and no note of
the list is more recent. -/
theorem sortByUpdatedDesc_head (l : List Note) (a : Note) (t : List Note)
    (h : sortByUpdatedDesc l = a :: t) :
    a ∈ l ∧ ∀ b ∈ l, b.updatedAt ≤ a.updatedAt := by
  have hperm : (a :: t).Perm l := h ▸ List.perm_insertionSort moreRecent l
  have hsorted : List.Sorted moreRecent (a :: t) := h ▸ List.sorted_insertionSort moreRecent l
  refine ⟨hperm.mem_iff.mp (List.mem_cons_self a t), fun b hb => ?_⟩
  rcases List.mem_cons.mp (hperm.mem_iff.mpr hb) with hba | hbt
  · rw [hba]
  · exact List.rel_of_sorted_cons hsorted b hbt

theorem sortByUpdatedDesc_ne_nil (l : List Note) (h : l ≠ []) : sortByUpdatedDesc l ≠ [] := by
  intro h0
  have hperm : ([] : List Note).Perm l := h0 ▸ List.perm_insertionSort moreRecent l
  exact h hperm.symm.eq_nil

theorem sortByUpdatedDesc_singleton (n : Note) : sortByUpdatedDesc [n] = [n] := rfl

/-! ## Current-note resolution: lemmas -/

theorem loadNotesFromStorage_urlNote (st : AppState) :
    (loadNotesFromStorage st).urlNote = st.urlNote := by
  unfold loadNotesFromStorage
  cases st.storedNotes <;> rfl

theorem loadNotesFromStorage_lastNote (st : AppState) :
    (loadNotesFromStorage st).lastNote = st.lastNote := by
  unfold loadNotesFromStorage
  cases st.storedNotes <;> rfl

theorem loadNotesFromStorage_storedNotes (st : AppState) :
    (loadNotesFromStorage st).storedNotes = st.storedNotes := by
  unfold loadNotesFromStorage
  cases st.storedNotes <;> rfl

theorem nameInStore_eq_some (notes : Store) (k : NoteId) (h : k ∈ notes.keys) :
    nameInStore notes (some k) = some k := by
  have := (Store.mem_keys_iff notes k).mp h
  simp [nameInStore, this]

theorem nameInStore_eq_none (notes : Store) (o : Option NoteId)
    (h : ∀ k, o = some k → k ∉ notes.keys) : nameInStore notes o = none := by
  cases o with
  | none => rfl
  | some k =>
    have hk : ¬ (notes.get k).isSome = true :=
      fun hs => h k rfl ((Store.mem_keys_iff notes k).mpr hs)
    simp [nameInStore, hk]

theorem nameInStore_some_mem (notes : Store) (o : Option NoteId) (k : NoteId)
    (h : nameInStore notes o = some k) : o = some k ∧ k ∈ notes.keys := by
  cases o with
  | none => simp [nameInStore] at h
  | some k0 =>
    by_cases hs : (notes.get k0).isSome = true
    · simp only [nameInStore, hs, if_true, Option.some.injEq] at h
      subst h
      exact ⟨rfl, (Store.mem_keys_iff notes k0).mpr hs⟩
    · simp [nameInStore, hs] at h

theorem getAllNotes_length_ne_zero (s : Store) (h : s ≠ []) : (getAllNotes s).length ≠ 0 :=
  fun h0 => getAllNotes_ne_nil s h (List.length_eq_zero.mp h0)

/-- With a non-empty store and a URL that names a store entry, `loadCurrentNote`
selects that entry and leaves the URL as it is. -/
theorem loadCurrentNote_of_url (st : AppState) (env : Env) (u : NoteId)
    (hne : (loadNotesFromStorage st).notes ≠ []) (hu : st.urlNote = some u)
    (hmem : u ∈ (loadNotesFromStorage st).notes.keys) :
    loadCurrentNote st env = { loadNotesFromStorage st with currentNoteId := some u } := by
  unfold loadCurrentNote
  simp only [getAllNotes_length_ne_zero _ hne, if_false, loadNotesFromStorage_urlNote, hu,
    nameInStore_eq_some _ u hmem]

/-- With a non-empty store, a URL that names no store entry and a last-edited
marker that names one, `loadCurrentNote` selects the marked entry and rewrites
the URL. -/
theorem loadCurrentNote_of_lastNote (st : AppState) (env : Env) (m : NoteId)
    (hne : (loadNotesFromStorage st).notes ≠ [])
    (hu : ∀ u, st.urlNote = some u → u ∉ (loadNotesFromStorage st).notes.keys)
    (hm : st.lastNote = some m) (hmem : m ∈ (loadNotesFromStorage st).notes.keys) :
    loadCurrentNote st env
      = updateUrlForNote { loadNotesFromStorage st with currentNoteId := some m } m := by
  unfold loadCurrentNote
  simp only [getAllNotes_length_ne_zero _ hne, if_false, loadNotesFromStorage_urlNote,
    loadNotesFromStorage_lastNote, nameInStore_eq_none _ _ hu, hm,
    nameInStore_eq_some _ m hmem]

/-- With a non-empty store in which neither the URL nor the last-edited marker
names an entry, `loadCurrentNote` selects a note no other note is more recent
than, and rewrites the URL. -/
theorem loadCurrentNote_of_neither (st : AppState) (env : Env)
    (hne : (loadNotesFromStorage st).notes ≠ [])
    (hu : ∀ u, st.urlNote = some u → u ∉ (loadNotesFromStorage st).notes.keys)
    (hm : ∀ m, st.lastNote = some m → m ∉ (loadNotesFromStorage st).notes.keys) :
    ∃ n ∈ getAllNotes (loadNotesFromStorage st).notes,
      (∀ n1 ∈ getAllNotes (loadNotesFromStorage st).notes, n1.updatedAt ≤ n.updatedAt) ∧
      loadCurrentNote st env
        = updateUrlForNote { loadNotesFromStorage st with currentNoteId := some n.id } n.id := by
  have hlen := getAllNotes_length_ne_zero _ hne
  cases hsort : sortByUpdatedDesc (getAllNotes (loadNotesFromStorage st).notes) with
  | nil =>
    exact absurd hsort (sortByUpdatedDesc_ne_nil _ (getAllNotes_ne_nil _ hne))
  | cons n t =>
    obtain ⟨hmemn, hmax⟩ := sortByUpdatedDesc_head _ n t hsort
    refine ⟨n, hmemn, hmax, ?_⟩
    unfold loadCurrentNote
    simp only [hlen, if_false, loadNotesFromStorage_urlNote, loadNotesFromStorage_lastNote,
      nameInStore_eq_none _ _ hu, nameInStore_eq_none _ _ hm, Nat.pos_of_ne_zero hlen,
      gt_iff_lt, if_true, hsort]

/-- With an empty store, `loadCurrentNote` is `createFirstNote`. -/
theorem loadCurrentNote_of_empty (st : AppState) (env : Env)
    (h : (loadNotesFromStorage st).notes = []) :
    loadCurrentNote st env = createFirstNote (loadNotesFromStorage st) env := by
  unfold loadCurrentNote
  simp [h, getAllNotes_nil]

/-! ## Saving: lemmas -/

theorem upsert_get_self_of_absent (notes : Store) (i : NoteId) (c : JSString) (now : Nat)
    (h : notes.get i = none) :
    (upsert notes i c now).get i
      = some { id := i, title := getNoteTitleFromContent c, content := c,
               createdAt := now, updatedAt := now } := by
  unfold upsert
  simp only [h]
  exact Store.get_set_self _ _ _

theorem upsert_get_self_of_present (notes : Store) (i : NoteId) (c : JSString) (now : Nat)
    (old : Note) (h : notes.get i = some old) :
    (upsert notes i c now).get i
      = some { id := old.id, title := getNoteTitleFromContent c, content := c,
               createdAt := old.createdAt, updatedAt := now } := by
  unfold upsert
  simp only [h]
  exact Store.get_set_self _ _ _

theorem upsert_get_of_ne (notes : Store) (i k : NoteId) (c : JSString) (now : Nat)
    (hne : k ≠ i) : (upsert notes i c now).get k = notes.get k := by
  unfold upsert
  cases h : notes.get i with
  | none => exact Store.get_set_of_ne _ _ _ _ hne
  | some old => exact Store.get_set_of_ne _ _ _ _ hne

/-- The state `saveToLocalStorage` leaves when the current note id is set. -/
theorem saveToLocalStorage_of_some (st : AppState) (env : Env) (c : JSString) (i : NoteId)
    (hi : st.currentNoteId = some i) :
    saveToLocalStorage st env c
      = { currentNoteId := some i, notes := upsert st.notes i c env.now,
          storedNotes := .json (upsert st.notes i c env.now), lastNote := some i,
          urlNote := some i, confirmCount := st.confirmCount } := by
  unfold saveToLocalStorage saveNotesToStorage updateUrlForNote
  simp only [hi]
  by_cases hu : st.urlNote = some i
  · simp [hu]
  · simp [hu]

/-- The state `saveToLocalStorage` leaves when the current note id is unset. -/
theorem saveToLocalStorage_of_none (st : AppState) (env : Env) (c : JSString)
    (hi : st.currentNoteId = none) :
    saveToLocalStorage st env c
      = { currentNoteId := some (generateNoteId env.dateNow env.random),
          notes := upsert st.notes (generateNoteId env.dateNow env.random) c env.now,
          storedNotes :=
            .json (upsert st.notes (generateNoteId env.dateNow env.random) c env.now),
          lastNote := some (generateNoteId env.dateNow env.random),
          urlNote := some (generateNoteId env.dateNow env.random),
          confirmCount := st.confirmCount } := by
  unfold saveToLocalStorage saveNotesToStorage updateUrlForNote
  simp only [hi]
  by_cases hu : st.urlNote = some (generateNoteId env.dateNow env.random)
  · simp [hu]
  · simp [hu]

theorem upsert_get_self (notes : Store) (i : NoteId) (c : JSString) (now : Nat) :
    ∃ n, (upsert notes i c now).get i = some n ∧ n.content = c ∧
      n.title = getNoteTitleFromContent c := by
  cases h : notes.get i with
  | none => exact ⟨_, upsert_get_self_of_absent notes i c now h, rfl, rfl⟩
  | some old => exact ⟨_, upsert_get_self_of_present notes i c now old h, rfl, rfl⟩

/-! ## Saving and current-note resolution on the identifiers of `NoteId` -/

/-- On the identifiers of `NoteId`:
for every non-empty store, URL note parameter and last-edited marker,
`loadCurrentNote` sets the current note id by first match: the URL parameter
if it is a key of the store; otherwise the marker if it is a key of the store;
otherwise the id of a note no note of the store is more recent than. In
particular, with a store of two notes A and B, B the more recent, and a URL
naming A, the current note id is that of A, whatever the marker is. -/
theorem loadCurrentNote_priority (st : AppState) (env : Env)
    (hne : (loadNotesFromStorage st).notes ≠ []) :
    (∀ u, st.urlNote = some u → u ∈ (loadNotesFromStorage st).notes.keys →
      (loadCurrentNote st env).currentNoteId = some u) ∧
    (∀ m, (∀ u, st.urlNote = some u → u ∉ (loadNotesFromStorage st).notes.keys) →
      st.lastNote = some m → m ∈ (loadNotesFromStorage st).notes.keys →
      (loadCurrentNote st env).currentNoteId = some m) ∧
    ((∀ u, st.urlNote = some u → u ∉ (loadNotesFromStorage st).notes.keys) →
      (∀ m, st.lastNote = some m → m ∉ (loadNotesFromStorage st).notes.keys) →
      ∃ n ∈ getAllNotes (loadNotesFromStorage st).notes,
        (∀ n1 ∈ getAllNotes (loadNotesFromStorage st).notes, n1.updatedAt ≤ n.updatedAt) ∧
        (loadCurrentNote st env).currentNoteId = some n.id) ∧
    (∀ a b A B, (loadNotesFromStorage st).notes = [(a, A), (b, B)] →
      A.updatedAt < B.updatedAt → st.urlNote = some a →
      (loadCurrentNote st env).currentNoteId = some a) := by
  refine ⟨?_, ?_, ?_, ?_⟩
  · intro u hu hmem
    rw [loadCurrentNote_of_url st env u hne hu hmem]
  · intro m hu hm hmem
    rw [loadCurrentNote_of_lastNote st env m hne hu hm hmem]
    rfl
  · intro hu hm
    obtain ⟨n, hn, hmax, heq⟩ := loadCurrentNote_of_neither st env hne hu hm
    exact ⟨n, hn, hmax, by rw [heq]; rfl⟩
  · intro a b A B hs _ hu
    have hmem : a ∈ (loadNotesFromStorage st).notes.keys := by
      rw [hs]; simp [Store.keys]
    rw [loadCurrentNote_of_url st env a hne hu hmem]

/-- At the sample state: the store holds A and B, B the more recent and the
note edited last, the URL names A, and A is selected. -/
theorem loadCurrentNote_priority_witness :
    (loadNotesFromStorage sampleState).notes ≠ [] ∧
    (loadCurrentNote sampleState sampleEnv).currentNoteId = some sampleIdA :=
  ⟨by decide,
   (loadCurrentNote_priority sampleState sampleEnv (by decide)).1 sampleIdA rfl (by decide)⟩

/-- On the identifiers of `NoteId`:
`saveToLocalStorage` with current id `i`, content `c` and clock value
`now`: if `i` is absent from the store, the store afterwards maps `i` to the
note with id `i`, content `c`, the title of `c` and `createdAt = updatedAt =
now`; if `i` is present, the note at `i` afterwards has the `id` and the
`createdAt` it had, content `c`, the title of `c` and `updatedAt = now`. -/
theorem saveToLocalStorage_upsert (st : AppState) (env : Env) (c : JSString) (i : NoteId)
    (hi : st.currentNoteId = some i) :
    (st.notes.get i = none →
      (saveToLocalStorage st env c).notes.get i
        = some { id := i, title := getNoteTitleFromContent c, content := c,
                 createdAt := env.now, updatedAt := env.now }) ∧
    (∀ old, st.notes.get i = some old →
      (saveToLocalStorage st env c).notes.get i
        = some { id := old.id, title := getNoteTitleFromContent c, content := c,
                 createdAt := old.createdAt, updatedAt := env.now }) := by
  rw [saveToLocalStorage_of_some st env c i hi]
  exact ⟨fun h => upsert_get_self_of_absent _ _ _ _ h,
         fun old h => upsert_get_self_of_present _ _ _ _ old h⟩

/-- At the sample data: saving `"Hi\nthere"` at time 3 while note A (created
at time 1) is current keeps its id and `createdAt`. -/
theorem saveToLocalStorage_upsert_witness :
    editingState.currentNoteId = some sampleIdA ∧
    (saveToLocalStorage editingState sampleEnv (lit "Hi\nthere")).notes.get sampleIdA
      = some { id := sampleIdA, title := lit "Hi", content := lit "Hi\nthere",
               createdAt := 1, updatedAt := 3 } :=
  ⟨rfl,
   ((saveToLocalStorage_upsert editingState sampleEnv (lit "Hi\nthere") sampleIdA rfl).2
      sampleNoteA (by decide)).trans (by decide)⟩

/-- With every write accepted and the slot read back as the store written:
for every content string `c`, store and current id,
`saveToLocalStorage` followed by `loadNotesFromStorage` yields a store whose
entry at the current id has content `c` and the title of `c`. -/
theorem save_then_load (st : AppState) (env : Env) (c : JSString) :
    ∃ i n, (saveToLocalStorage st env c).currentNoteId = some i ∧
      (loadNotesFromStorage (saveToLocalStorage st env c)).notes.get i = some n ∧
      n.content = c ∧ n.title = getNoteTitleFromContent c := by
  cases hi : st.currentNoteId with
  | some i =>
    obtain ⟨n, hn, hc, ht⟩ := upsert_get_self st.notes i c env.now
    refine ⟨i, n, ?_, ?_, hc, ht⟩
    · rw [saveToLocalStorage_of_some st env c i hi]
    · rw [saveToLocalStorage_of_some st env c i hi]
      exact hn
  | none =>
    obtain ⟨n, hn, hc, ht⟩ :=
      upsert_get_self st.notes (generateNoteId env.dateNow env.random) c env.now
    refine ⟨generateNoteId env.dateNow env.random, n, ?_, ?_, hc, ht⟩
    · rw [saveToLocalStorage_of_none st env c hi]
    · rw [saveToLocalStorage_of_none st env c hi]
      exact hn

/-- On the identifiers of `NoteId`:
for every non-empty store in which neither the URL note parameter nor
the last-edited marker names an entry, `loadCurrentNote` selects a note whose
`updatedAt` is at least that of every note of the store, sets the current note
id to the id of that note and rewrites the URL note parameter to it. -/
theorem loadCurrentNote_most_recent (st : AppState) (env : Env)
    (hne : (loadNotesFromStorage st).notes ≠ [])
    (hu : ∀ u, st.urlNote = some u → u ∉ (loadNotesFromStorage st).notes.keys)
    (hm : ∀ m, st.lastNote = some m → m ∉ (loadNotesFromStorage st).notes.keys) :
    ∃ n ∈ getAllNotes (loadNotesFromStorage st).notes,
      (∀ n1 ∈ getAllNotes (loadNotesFromStorage st).notes, n1.updatedAt ≤ n.updatedAt) ∧
      (loadCurrentNote st env).currentNoteId = some n.id ∧
      (loadCurrentNote st env).urlNote = some n.id := by
  obtain ⟨n, hn, hmax, heq⟩ := loadCurrentNote_of_neither st env hne hu hm
  exact ⟨n, hn, hmax, by rw [heq]; rfl, by rw [heq]; rfl⟩

/-- The sample store persisted, with no URL parameter and no marker. -/
theorem loadCurrentNote_most_recent_witness :
    ∃ n ∈ getAllNotes sampleStore,
      (∀ n1 ∈ getAllNotes sampleStore, n1.updatedAt ≤ n.updatedAt) ∧
      (loadCurrentNote { sampleState with urlNote := none, lastNote := none }
        sampleEnv).currentNoteId = some n.id ∧
      (loadCurrentNote { sampleState with urlNote := none, lastNote := none }
        sampleEnv).urlNote = some n.id :=
  loadCurrentNote_most_recent { sampleState with urlNote := none, lastNote := none }
    sampleEnv (by decide) (fun u h => by cases h) (fun m h => by cases h)

/-- With every write accepted:
when the persisted store is empty or absent (or does not parse,
which the program treats alike), `loadCurrentNote` creates the welcome note under a newly generated id; afterwards the store in
memory holds exactly that note, the persisted slot holds the serialisation of
that store, and the current note id and the URL note parameter are the new id.
The state reached mentions neither the URL parameter nor the current note id
nor the store in memory of the state before, and keeps the marker as it is. -/
theorem loadCurrentNote_welcome (st : AppState) (env : Env)
    (hslot : st.storedNotes = .absent ∨ st.storedNotes = .json [] ∨
      st.storedNotes = .malformed) :
    loadCurrentNote st env
      = { currentNoteId := some (generateNoteId env.dateNow env.random),
          notes := [(generateNoteId env.dateNow env.random,
            { id := generateNoteId env.dateNow env.random,
              title := lit "Welcome to blank.ashref.tn",
              content :=
                lit "Welcome to blank.ashref.tn\n\nStart typing to create your first note...",
              createdAt := env.now,
              updatedAt := env.nowAgain })],
          storedNotes := .json [(generateNoteId env.dateNow env.random,
            { id := generateNoteId env.dateNow env.random,
              title := lit "Welcome to blank.ashref.tn",
              content :=
                lit "Welcome to blank.ashref.tn\n\nStart typing to create your first note...",
              createdAt := env.now,
              updatedAt := env.nowAgain })],
          lastNote := st.lastNote,
          urlNote := some (generateNoteId env.dateNow env.random),
          confirmCount := st.confirmCount } := by
  have h : (loadNotesFromStorage st).notes = [] := by
    unfold loadNotesFromStorage
    rcases hslot with h0 | h0 | h0 <;> rw [h0]
  rw [loadCurrentNote_of_empty st env h]
  unfold createFirstNote saveNotesToStorage updateUrlForNote
  simp only [h, Store.set_nil, loadNotesFromStorage_lastNote]
  congr 1
  unfold loadNotesFromStorage
  cases st.storedNotes <;> rfl

/-- At a page that opens with nothing in `localStorage`: the welcome note
is created and selected. -/
theorem loadCurrentNote_welcome_witness :
    freshState.storedNotes = .absent ∧
    (loadCurrentNote freshState sampleEnv).currentNoteId
      = some (generateNoteId 3 (lit "c")) ∧
    (loadCurrentNote freshState sampleEnv).notes.keys = [generateNoteId 3 (lit "c")] ∧
    (loadCurrentNote freshState sampleEnv).storedNotes
      = .json (loadCurrentNote freshState sampleEnv).notes :=
  ⟨rfl, by rw [loadCurrentNote_welcome freshState sampleEnv (Or.inl rfl)]; rfl,
   by rw [loadCurrentNote_welcome freshState sampleEnv (Or.inl rfl)]; rfl,
   by rw [loadCurrentNote_welcome freshState sampleEnv (Or.inl rfl)]⟩

/-! ## Creating, switching, deleting: lemmas -/

theorem createNewNote_eq (st : AppState) (env : Env) :
    createNewNote st env
      = { currentNoteId := some (generateNoteId env.dateNow env.random),
          notes := st.notes.set (generateNoteId env.dateNow env.random)
            { id := generateNoteId env.dateNow env.random, title := lit "Untitled",
              content := [], createdAt := env.now, updatedAt := env.now },
          storedNotes := .json (st.notes.set (generateNoteId env.dateNow env.random)
            { id := generateNoteId env.dateNow env.random, title := lit "Untitled",
              content := [], createdAt := env.now, updatedAt := env.now }),
          lastNote := st.lastNote,
          urlNote := some (generateNoteId env.dateNow env.random),
          confirmCount := st.confirmCount } := rfl

theorem switchToNote_of_absent (st : AppState) (x : NoteId) (h : st.notes.get x = none) :
    switchToNote st x = st := by
  unfold switchToNote
  simp only [h]

theorem switchToNote_of_present (st : AppState) (x : NoteId) (n : Note)
    (h : st.notes.get x = some n) :
    switchToNote st x = { st with currentNoteId := some x, urlNote := some x } := by
  unfold switchToNote updateUrlForNote
  simp only [h]

theorem deleteNote_of_absent (st : AppState) (env : Env) (x : NoteId)
    (h : st.notes.get x = none) : deleteNote st env x = st := by
  unfold deleteNote
  simp only [h]

theorem deleteNote_of_declined (st : AppState) (env : Env) (x : NoteId) (n : Note)
    (h : st.notes.get x = some n) (hc : env.confirm = false) :
    deleteNote st env x = { st with confirmCount := st.confirmCount + 1 } := by
  unfold deleteNote
  simp [h, hc]

theorem deleteNote_of_other (st : AppState) (env : Env) (x : NoteId) (n : Note)
    (h : st.notes.get x = some n) (hc : env.confirm = true)
    (hcur : st.currentNoteId ≠ some x) :
    deleteNote st env x
      = { st with confirmCount := st.confirmCount + 1, notes := st.notes.erase x,
                  storedNotes := .json (st.notes.erase x) } := by
  unfold deleteNote saveNotesToStorage
  simp [h, hc, hcur]

theorem deleteNote_of_current_last (st : AppState) (env : Env) (x : NoteId) (n : Note)
    (h : st.notes.get x = some n) (hc : env.confirm = true)
    (hcur : st.currentNoteId = some x) (hrem : st.notes.erase x = []) :
    deleteNote st env x
      = createNewNote { st with confirmCount := st.confirmCount + 1, notes := [],
                                storedNotes := .json [] } env := by
  unfold deleteNote saveNotesToStorage
  simp [h, hc, hcur, hrem, Store.keys]

theorem deleteNote_of_current_more (st : AppState) (env : Env) (x : NoteId) (n : Note)
    (h : st.notes.get x = some n) (hc : env.confirm = true)
    (hcur : st.currentNoteId = some x) (hrem : st.notes.erase x ≠ []) :
    ∃ latest ∈ getAllNotes (st.notes.erase x),
      (∀ n1 ∈ getAllNotes (st.notes.erase x), n1.updatedAt ≤ latest.updatedAt) ∧
      deleteNote st env x
        = switchToNote { st with confirmCount := st.confirmCount + 1,
                                 notes := st.notes.erase x,
                                 storedNotes := .json (st.notes.erase x) } latest.id := by
  have hlen : 0 < (st.notes.erase x).keys.length := by
    simpa [Store.keys, List.length_pos] using hrem
  cases hsort : sortByUpdatedDesc (getAllNotes (st.notes.erase x)) with
  | nil => exact absurd hsort (sortByUpdatedDesc_ne_nil _ (getAllNotes_ne_nil _ hrem))
  | cons latest t =>
    obtain ⟨hmem, hmax⟩ := sortByUpdatedDesc_head _ latest t hsort
    refine ⟨latest, hmem, hmax, ?_⟩
    have hsort2 : sortByUpdatedDesc
        (List.filterMap (st.notes.erase x).get (st.notes.erase x).keys) = latest :: t := hsort
    unfold deleteNote saveNotesToStorage
    simp only [h, hc, if_true, hcur, gt_iff_lt, hlen, hsort2]

theorem KeysMatchIds.of_getAllNotes (s : Store) (hs : KeysMatchIds s) (n : Note)
    (hn : n ∈ getAllNotes s) : n.id ∈ s.keys := by
  obtain ⟨k, hk⟩ := (mem_getAllNotes s n).mp hn
  have hid : n.id = k := hs (k, n) (Store.mem_of_get s k n hk)
  rw [hid]
  exact Store.mem_keys_of_get s k n hk

theorem KeysMatchIds.erase (s : Store) (hs : KeysMatchIds s) (x : NoteId) :
    KeysMatchIds (s.erase x) :=
  fun e he => hs e (Store.mem_erase s x e he)

theorem Store.mem_keys_erase_of_ne (s : Store) (x k : NoteId) (hk : k ∈ s.keys)
    (hne : k ≠ x) : k ∈ (s.erase x).keys := by
  rw [Store.mem_keys_iff] at hk ⊢
  rw [Store.get_erase_of_ne s x k hne]
  exact hk

theorem Store.mem_keys_set_of_mem (s : Store) (k k1 : NoteId) (v : Note) (h : k1 ∈ s.keys) :
    k1 ∈ (s.set k v).keys := by
  by_cases hk : k1 = k
  · rw [hk]; exact Store.mem_keys_set_self s k v
  · rw [Store.mem_keys_iff] at h ⊢
    rw [Store.get_set_of_ne s k k1 v hk]
    exact h

theorem upsert_mem_keys_self (notes : Store) (i : NoteId) (c : JSString) (now : Nat) :
    i ∈ (upsert notes i c now).keys := by
  obtain ⟨n, hn, _, _⟩ := upsert_get_self notes i c now
  exact Store.mem_keys_of_get _ _ _ hn

theorem saveToLocalStorage_currentIsKey (st : AppState) (env : Env) (c : JSString) :
    CurrentIsKey (saveToLocalStorage st env c) := by
  cases hi : st.currentNoteId with
  | some i =>
    rw [saveToLocalStorage_of_some st env c i hi]
    exact ⟨i, rfl, upsert_mem_keys_self _ _ _ _⟩
  | none =>
    rw [saveToLocalStorage_of_none st env c hi]
    exact ⟨_, rfl, upsert_mem_keys_self _ _ _ _⟩

theorem handleTextareaInput_currentIsKey (st : AppState) (env : Env) (c : JSString) :
    CurrentIsKey (handleTextareaInput st env c) := by
  unfold handleTextareaInput
  exact saveToLocalStorage_currentIsKey _ env c

theorem createNewNote_currentIsKey (st : AppState) (env : Env) :
    CurrentIsKey (createNewNote st env) := by
  rw [createNewNote_eq]
  exact ⟨_, rfl, Store.mem_keys_set_self _ _ _⟩

theorem loadCurrentNote_currentIsKey (st : AppState) (env : Env)
    (hs : KeysMatchIds (loadNotesFromStorage st).notes) :
    CurrentIsKey (loadCurrentNote st env) := by
  by_cases hne : (loadNotesFromStorage st).notes = []
  · rw [loadCurrentNote_of_empty st env hne]
    exact ⟨generateNoteId env.dateNow env.random, rfl, Store.mem_keys_set_self _ _ _⟩
  · cases hu : nameInStore (loadNotesFromStorage st).notes st.urlNote with
    | some u =>
      obtain ⟨hu1, hu2⟩ := nameInStore_some_mem _ _ _ hu
      rw [loadCurrentNote_of_url st env u hne hu1 hu2]
      exact ⟨u, rfl, hu2⟩
    | none =>
      have hu0 : ∀ u, st.urlNote = some u → u ∉ (loadNotesFromStorage st).notes.keys := by
        intro u hu1 hu2
        rw [hu1, nameInStore_eq_some _ u hu2] at hu
        cases hu
      cases hm : nameInStore (loadNotesFromStorage st).notes st.lastNote with
      | some m =>
        obtain ⟨hm1, hm2⟩ := nameInStore_some_mem _ _ _ hm
        rw [loadCurrentNote_of_lastNote st env m hne hu0 hm1 hm2]
        exact ⟨m, rfl, hm2⟩
      | none =>
        have hm0 : ∀ m, st.lastNote = some m → m ∉ (loadNotesFromStorage st).notes.keys := by
          intro m hm1 hm2
          rw [hm1, nameInStore_eq_some _ m hm2] at hm
          cases hm
        obtain ⟨n, hn, _, heq⟩ := loadCurrentNote_of_neither st env hne hu0 hm0
        rw [heq]
        exact ⟨n.id, rfl, KeysMatchIds.of_getAllNotes _ hs n hn⟩

/-! ## Claims on deleting and on the current note id -/

/-- C7, as the code has it: when the user confirms, `deleteNote` applied to the
current note id: if exactly one other note remains in the store and the `id`
field of that note is its key, the current note id afterwards is the id of
that note, and the deleted id is no key of the store; if the deleted note was
the only note, the store afterwards holds exactly one note, freshly created
(empty content, title `Untitled`, `createdAt = updatedAt`), whose id is the
current note id, and the deleted id is no key of the store when the generated
id differs from it. -/
theorem deleteNote_current (st : AppState) (env : Env) (noteId : NoteId) (x : Note)
    (hx : st.notes.get noteId = some x) (hc : env.confirm = true)
    (hcur : st.currentNoteId = some noteId) :
    (∀ k n, st.notes.erase noteId = [(k, n)] → n.id = k →
      (deleteNote st env noteId).currentNoteId = some n.id ∧
      (deleteNote st env noteId).notes = [(k, n)] ∧
      noteId ∉ (deleteNote st env noteId).notes.keys) ∧
    (st.notes.erase noteId = [] →
      (deleteNote st env noteId).notes
        = [(generateNoteId env.dateNow env.random,
            { id := generateNoteId env.dateNow env.random, title := lit "Untitled",
              content := [], createdAt := env.now, updatedAt := env.now })] ∧
      (deleteNote st env noteId).currentNoteId
        = some (generateNoteId env.dateNow env.random) ∧
      (generateNoteId env.dateNow env.random ≠ noteId →
        noteId ∉ (deleteNote st env noteId).notes.keys)) := by
  constructor
  · intro k n hrem hid
    have hne : st.notes.erase noteId ≠ [] := by rw [hrem]; simp
    obtain ⟨latest, hmem, _, heq⟩ := deleteNote_of_current_more st env noteId x hx hc hcur hne
    rw [hrem, getAllNotes_singleton, List.mem_singleton] at hmem
    subst hmem
    have hget : Store.get [(k, latest)] latest.id = some latest := by
      rw [Store.get_cons, if_pos hid]
    rw [heq, hrem, switchToNote_of_present _ _ latest hget]
    refine ⟨rfl, rfl, ?_⟩
    have := Store.not_mem_keys_erase st.notes noteId
    rw [hrem] at this
    exact this
  · intro hrem
    rw [deleteNote_of_current_last st env noteId x hx hc hcur hrem, createNewNote_eq]
    refine ⟨rfl, rfl, ?_⟩
    intro hne hmem
    simp only [Store.set_nil, Store.keys, List.map_cons, List.map_nil,
      List.mem_singleton] at hmem
    exact hne hmem.symm

/-- C7 at the sample data: note A is current, A and B are stored, the user
confirms the deletion of A; B becomes current and A is no key any more. -/
theorem deleteNote_current_witness :
    (deleteNote editingState sampleEnv sampleIdA).currentNoteId = some sampleNoteB.id ∧
    (deleteNote editingState sampleEnv sampleIdA).notes = [(sampleIdB, sampleNoteB)] ∧
    sampleIdA ∉ (deleteNote editingState sampleEnv sampleIdA).notes.keys :=
  (deleteNote_current editingState sampleEnv sampleIdA sampleNoteA (by decide) rfl rfl).1
    sampleIdB sampleNoteB (by decide) rfl

/-- C7 as stated fails twice. With A current and a second note stored under a
key that is not its `id` field, the confirmed deletion of A leaves exactly that
note and the current note id is still that of A, not the id of the remaining
note. With a single note stored under the identifier the generator returns
next, the confirmed deletion of that note leaves the deleted id a key of the
store. -/
theorem deleteNote_current_fails :
    (sampleEnv.confirm = true ∧
      mismatchedState.currentNoteId = some sampleIdA ∧
      mismatchedState.notes.erase sampleIdA = [(sampleIdB, sampleNoteC)] ∧
      (deleteNote mismatchedState sampleEnv sampleIdA).currentNoteId = some sampleIdA ∧
      (deleteNote mismatchedState sampleEnv sampleIdA).currentNoteId
        ≠ some sampleNoteC.id) ∧
    (recycledIdState.currentNoteId = some (generateNoteId 3 (lit "c")) ∧
      recycledIdState.notes.erase (generateNoteId 3 (lit "c")) = [] ∧
      generateNoteId 3 (lit "c")
        ∈ (deleteNote recycledIdState sampleEnv (generateNoteId 3 (lit "c"))).notes.keys) := by
  decide

/-- On the identifiers of `NoteId`:
from a state in which the current note id is unset
or names a store entry and every entry of the store, in memory and as
persisted, has an `id` field equal to its key, each of `loadCurrentNote`,
`handleTextareaInput`, `saveToLocalStorage` and `createNewNote` ends with a
current note id that is a key of the store; so does `switchToNote`, unless it
is a no-op and leaves the state as it is; so does `deleteNote`, unless it leaves
the current note id unchanged, which it does only when the user declined, the
note is absent or the current note id is unset. After each of them the current
note id is unset or a key of the store. -/
theorem current_note_in_store (st : AppState) (env : Env) (content : JSString) (x : NoteId)
    (h : Consistent st) :
    (CurrentIsKey (loadCurrentNote st env) ∧
      CurrentIsKey (handleTextareaInput st env content) ∧
      CurrentIsKey (saveToLocalStorage st env content) ∧
      CurrentIsKey (createNewNote st env)) ∧
    (CurrentIsKey (switchToNote st x) ∨
      (st.notes.get x = none ∧ switchToNote st x = st)) ∧
    (CurrentIsKey (deleteNote st env x) ∨
      ((deleteNote st env x).currentNoteId = st.currentNoteId ∧
        (env.confirm = false ∨ st.notes.get x = none ∨ st.currentNoteId = none))) ∧
    (CurrentInStore (switchToNote st x) ∧ CurrentInStore (deleteNote st env x)) := by
  obtain ⟨hcur, hmem, hstored⟩ := h
  have hswitch : CurrentIsKey (switchToNote st x) ∨
      (st.notes.get x = none ∧ switchToNote st x = st) := by
    cases hx : st.notes.get x with
    | none => exact Or.inr ⟨rfl, switchToNote_of_absent st x hx⟩
    | some n =>
      rw [switchToNote_of_present st x n hx]
      exact Or.inl ⟨x, rfl, Store.mem_keys_of_get _ _ _ hx⟩
  have hdelete : CurrentIsKey (deleteNote st env x) ∨
      ((deleteNote st env x).currentNoteId = st.currentNoteId ∧
        (env.confirm = false ∨ st.notes.get x = none ∨ st.currentNoteId = none)) := by
    cases hx : st.notes.get x with
    | none =>
      rw [deleteNote_of_absent st env x hx]
      exact Or.inr ⟨rfl, Or.inr (Or.inl rfl)⟩
    | some n =>
      cases hc : env.confirm with
      | false =>
        rw [deleteNote_of_declined st env x n hx hc]
        exact Or.inr ⟨rfl, Or.inl rfl⟩
      | true =>
        by_cases hcx : st.currentNoteId = some x
        · by_cases hrem : st.notes.erase x = []
          · rw [deleteNote_of_current_last st env x n hx hc hcx hrem]
            exact Or.inl (createNewNote_currentIsKey _ env)
          · obtain ⟨latest, hl, _, heq⟩ :=
              deleteNote_of_current_more st env x n hx hc hcx hrem
            have hkey : latest.id ∈ (st.notes.erase x).keys :=
              KeysMatchIds.of_getAllNotes _ (KeysMatchIds.erase _ hmem x) latest hl
            obtain ⟨m, hm⟩ := Option.isSome_iff_exists.mp
              ((Store.mem_keys_iff _ _).mp hkey)
            rw [heq, switchToNote_of_present _ _ m hm]
            exact Or.inl ⟨latest.id, rfl, hkey⟩
        · rw [deleteNote_of_other st env x n hx hc hcx]
          cases hk : st.currentNoteId with
          | none => exact Or.inr ⟨rfl, Or.inr (Or.inr rfl)⟩
          | some k =>
            have hne : k ≠ x := fun hkx => hcx (by rw [hk, hkx])
            exact Or.inl ⟨k, rfl, Store.mem_keys_erase_of_ne _ _ _ (hcur k hk) hne⟩
  refine ⟨⟨loadCurrentNote_currentIsKey st env hstored,
    handleTextareaInput_currentIsKey st env content,
    saveToLocalStorage_currentIsKey st env content,
    createNewNote_currentIsKey st env⟩, hswitch, hdelete, ?_, ?_⟩
  · rcases hswitch with ⟨k, hk, hkm⟩ | ⟨_, heq⟩
    · intro k1 hk1
      rw [hk] at hk1
      cases hk1
      exact hkm
    · rw [heq]; exact hcur
  · rcases hdelete with ⟨k, hk, hkm⟩ | ⟨heq, hcase⟩
    · intro k1 hk1
      rw [hk] at hk1
      cases hk1
      exact hkm
    · intro k1 hk1
      rw [heq] at hk1
      rcases hcase with hc | hx | hnone
      · cases hx : st.notes.get x with
        | none => rw [deleteNote_of_absent st env x hx]; exact hcur k1 hk1
        | some n => rw [deleteNote_of_declined st env x n hx hc]; exact hcur k1 hk1
      · rw [deleteNote_of_absent st env x hx]; exact hcur k1 hk1
      · rw [hnone] at hk1; cases hk1

/-- At the sample data: from the state in which note A is current, every
operation ends with a current note id that is a key of the store. -/
theorem current_note_in_store_witness :
    Consistent editingState ∧
    CurrentIsKey (loadCurrentNote editingState sampleEnv) ∧
    CurrentIsKey (deleteNote editingState sampleEnv sampleIdA) ∧
    CurrentInStore (deleteNote editingState sampleEnv sampleIdB) :=
  have hcons : Consistent editingState :=
    ⟨fun k hk => by cases hk; decide, by decide, by decide⟩
  ⟨hcons,
   (current_note_in_store editingState sampleEnv [] sampleIdA hcons).1.1,
   ⟨sampleIdB, by decide, by decide⟩,
   (current_note_in_store editingState sampleEnv [] sampleIdB hcons).2.2.2.2⟩

/-- On the identifiers of `NoteId` the current note id can still end
outside the store, in two ways. With the sample store loaded and no current note
id, the confirmed deletion of the stored note A is neither declined nor a
no-op, and ends with the current note id unset, which is no key of the store.
With an empty store in memory, whose entries trivially have their keys as `id`
fields, and a persisted note stored under a key that is not its `id` field,
`loadCurrentNote` ends with a current note id that is no key of the store. -/
theorem current_note_in_store_fails :
    (CurrentInStore unselectedState ∧ KeysMatchIds unselectedState.notes ∧
      sampleEnv.confirm = true ∧
      unselectedState.notes.get sampleIdA = some sampleNoteA ∧
      (deleteNote unselectedState sampleEnv sampleIdA).notes ≠ unselectedState.notes ∧
      (deleteNote unselectedState sampleEnv sampleIdA).currentNoteId = none ∧
      ¬ CurrentIsKey (deleteNote unselectedState sampleEnv sampleIdA)) ∧
    (CurrentInStore staleState ∧ KeysMatchIds staleState.notes ∧
      (loadCurrentNote staleState sampleEnv).currentNoteId = some sampleIdC ∧
      sampleIdC ∉ (loadCurrentNote staleState sampleEnv).notes.keys ∧
      ¬ CurrentIsKey (loadCurrentNote staleState sampleEnv)) := by
  refine ⟨⟨(fun k hk => by cases hk), by decide, rfl, by decide, by decide, by decide, ?_⟩,
    ⟨(fun k hk => by cases hk), by decide, by decide, by decide, ?_⟩⟩
  · rintro ⟨k, hk, _⟩
    have h0 : (deleteNote unselectedState sampleEnv sampleIdA).currentNoteId = none := by
      decide
    rw [h0] at hk
    cases hk
  · rintro ⟨k, hk, hmem⟩
    have h0 : (loadCurrentNote staleState sampleEnv).currentNoteId = some sampleIdC := by
      decide
    rw [h0] at hk
    cases hk
    exact absurd hmem (by decide)

/-! ## Frame and invariant: lemmas -/

theorem Store.mem_keys_set_iff (s : Store) (k k1 : NoteId) (v : Note) :
    k1 ∈ (s.set k v).keys ↔ k1 ∈ s.keys ∨ k1 = k := by
  by_cases hk : k1 = k
  · subst hk
    exact ⟨fun _ => Or.inr rfl, fun _ => Store.mem_keys_set_self s k1 v⟩
  · rw [Store.mem_keys_iff, Store.mem_keys_iff, Store.get_set_of_ne s k k1 v hk]
    exact ⟨fun h => Or.inl h, fun h => h.resolve_right hk⟩

theorem Store.keys_set (s : Store) (k : NoteId) (v : Note) :
    (s.set k v).keys = if k ∈ s.keys then s.keys else s.keys ++ [k] := by
  unfold Store.set
  by_cases hk : (s.get k).isSome = true
  · have hmem : k ∈ s.keys := (Store.mem_keys_iff s k).mpr hk
    rw [if_pos hk, if_pos hmem]
    unfold Store.keys
    rw [List.map_map]
    apply List.map_congr_left
    intro e _
    by_cases he : e.1 = k
    · simp [he]
    · simp [he]
  · have hmem : k ∉ s.keys := fun h => hk ((Store.mem_keys_iff s k).mp h)
    rw [if_neg hk, if_neg hmem]
    simp [Store.keys]

theorem upsert_eq_set (notes : Store) (i : NoteId) (c : JSString) (now : Nat) :
    ∃ v : Note, upsert notes i c now = notes.set i v ∧
      (v.id = i ∨ ∃ old, notes.get i = some old ∧ v.id = old.id) := by
  unfold upsert
  cases h : notes.get i with
  | none => exact ⟨_, rfl, Or.inl rfl⟩
  | some old => exact ⟨_, rfl, Or.inr ⟨old, rfl, rfl⟩⟩

theorem upsert_mem_keys_iff (notes : Store) (i k : NoteId) (c : JSString) (now : Nat) :
    k ∈ (upsert notes i c now).keys ↔ k ∈ notes.keys ∨ k = i := by
  obtain ⟨v, hv, _⟩ := upsert_eq_set notes i c now
  rw [hv]
  exact Store.mem_keys_set_iff notes i k v

theorem upsert_keys (notes : Store) (i : NoteId) (c : JSString) (now : Nat) :
    (upsert notes i c now).keys = if i ∈ notes.keys then notes.keys else notes.keys ++ [i] := by
  obtain ⟨v, hv, _⟩ := upsert_eq_set notes i c now
  rw [hv]
  exact Store.keys_set notes i v

theorem KeysMatchIds.set (s : Store) (hs : KeysMatchIds s) (k : NoteId) (v : Note)
    (hv : v.id = k) : KeysMatchIds (s.set k v) := by
  unfold Store.set
  by_cases hk : (s.get k).isSome = true
  · rw [if_pos hk]
    intro e he
    obtain ⟨e0, he0, heq⟩ := List.mem_map.mp he
    by_cases h0 : e0.1 = k
    · rw [if_pos h0] at heq
      rw [← heq]
      exact hv
    · rw [if_neg h0] at heq
      rw [← heq]
      exact hs e0 he0
  · rw [if_neg hk]
    intro e he
    rcases List.mem_append.mp he with h1 | h1
    · exact hs e h1
    · rw [List.mem_singleton] at h1
      rw [h1]
      exact hv

theorem KeysMatchIds.upsert (notes : Store) (hs : KeysMatchIds notes) (i : NoteId)
    (c : JSString) (now : Nat) : KeysMatchIds (upsert notes i c now) := by
  obtain ⟨v, hv, hid⟩ := upsert_eq_set notes i c now
  rw [hv]
  apply KeysMatchIds.set notes hs i v
  rcases hid with h | ⟨old, hold, h⟩
  · exact h
  · rw [h]
    exact hs (i, old) (Store.mem_of_get notes i old hold)

theorem KeysMatchIds.nil : KeysMatchIds [] := fun e he => by cases he

theorem switchToNote_notes (st : AppState) (x : NoteId) :
    (switchToNote st x).notes = st.notes := by
  cases hx : st.notes.get x with
  | none => rw [switchToNote_of_absent st x hx]
  | some n => rw [switchToNote_of_present st x n hx]

theorem saveToLocalStorage_notes (st : AppState) (env : Env) (c : JSString) :
    ∃ i, (saveToLocalStorage st env c).currentNoteId = some i ∧
      (saveToLocalStorage st env c).notes = upsert st.notes i c env.now ∧
      (saveToLocalStorage st env c).storedNotes = .json (upsert st.notes i c env.now) := by
  cases hi : st.currentNoteId with
  | some i =>
    rw [saveToLocalStorage_of_some st env c i hi]
    exact ⟨i, rfl, rfl, rfl⟩
  | none =>
    rw [saveToLocalStorage_of_none st env c hi]
    exact ⟨_, rfl, rfl, rfl⟩

theorem deleteNote_keysMatchIds (st : AppState) (env : Env) (x : NoteId)
    (h : KeysMatchIds st.notes) : KeysMatchIds (deleteNote st env x).notes := by
  cases hx : st.notes.get x with
  | none => rw [deleteNote_of_absent st env x hx]; exact h
  | some n =>
    cases hc : env.confirm with
    | false => rw [deleteNote_of_declined st env x n hx hc]; exact h
    | true =>
      by_cases hcx : st.currentNoteId = some x
      · by_cases hrem : st.notes.erase x = []
        · rw [deleteNote_of_current_last st env x n hx hc hcx hrem, createNewNote_eq]
          exact KeysMatchIds.set _ KeysMatchIds.nil _ _ rfl
        · obtain ⟨latest, _, _, heq⟩ := deleteNote_of_current_more st env x n hx hc hcx hrem
          rw [heq, switchToNote_notes]
          exact KeysMatchIds.erase _ h x
      · rw [deleteNote_of_other st env x n hx hc hcx]
        exact KeysMatchIds.erase _ h x

/-! ## Claims on no-ops, confirmation, invariant and frame -/

/-- On the identifiers of `NoteId`:
for every state and every identifier `x` that is not a key of the
store, `switchToNote` and `deleteNote` leave the state as it is: the store, the
current note id, the two persisted slots and the URL are unchanged, and
`deleteNote` shows no confirmation dialog. -/
theorem absent_note_no_op (st : AppState) (env : Env) (x : NoteId)
    (hx : x ∉ st.notes.keys) :
    switchToNote st x = st ∧ deleteNote st env x = st ∧
    (deleteNote st env x).confirmCount = st.confirmCount := by
  have hget : st.notes.get x = none := by
    cases hg : st.notes.get x with
    | none => rfl
    | some n => exact absurd (Store.mem_keys_of_get _ _ _ hg) hx
  rw [switchToNote_of_absent st x hget, deleteNote_of_absent st env x hget]
  exact ⟨rfl, rfl, rfl⟩

/-- At the sample data: the third sample identifier is no key of the
sample store. -/
theorem absent_note_no_op_witness :
    sampleIdC ∉ editingState.notes.keys ∧
    switchToNote editingState sampleIdC = editingState ∧
    deleteNote editingState sampleEnv sampleIdC = editingState ∧
    (deleteNote editingState sampleEnv sampleIdC).confirmCount
      = editingState.confirmCount :=
  ⟨by decide, absent_note_no_op editingState sampleEnv sampleIdC (by decide)⟩

/-- C12: for every store and every note id in it, if the user declines the
confirmation then `deleteNote` leaves the store, the persisted store slot and
the current note id as they were; and whenever the entry is gone after
`deleteNote`, or the store or the slot differ at all, the confirmation was
shown and returned true. -/
theorem deleteNote_needs_confirmation (st : AppState) (env : Env) (x : NoteId) (n : Note)
    (hx : st.notes.get x = some n) :
    (env.confirm = false →
      (deleteNote st env x).notes = st.notes ∧
      (deleteNote st env x).storedNotes = st.storedNotes ∧
      (deleteNote st env x).currentNoteId = st.currentNoteId) ∧
    ((deleteNote st env x).notes.get x ≠ some n → env.confirm = true) ∧
    ((deleteNote st env x).notes ≠ st.notes ∨
        (deleteNote st env x).storedNotes ≠ st.storedNotes → env.confirm = true) ∧
    (deleteNote st env x).confirmCount = st.confirmCount + 1 := by
  have hdecl : env.confirm = false →
      deleteNote st env x = { st with confirmCount := st.confirmCount + 1 } :=
    fun hc => deleteNote_of_declined st env x n hx hc
  refine ⟨?_, ?_, ?_, ?_⟩
  · intro hc
    rw [hdecl hc]
    exact ⟨rfl, rfl, rfl⟩
  · intro hgone
    cases hc : env.confirm with
    | true => rfl
    | false =>
      rw [hdecl hc] at hgone
      exact absurd hx hgone
  · intro hdiff
    cases hc : env.confirm with
    | true => rfl
    | false =>
      rw [hdecl hc] at hdiff
      rcases hdiff with h | h <;> exact absurd rfl h
  · cases hc : env.confirm with
    | false => rw [hdecl hc]
    | true =>
      by_cases hcx : st.currentNoteId = some x
      · by_cases hrem : st.notes.erase x = []
        · rw [deleteNote_of_current_last st env x n hx hc hcx hrem, createNewNote_eq]
        · obtain ⟨latest, _, _, heq⟩ := deleteNote_of_current_more st env x n hx hc hcx hrem
          rw [heq]
          cases hl : Store.get (st.notes.erase x) latest.id with
          | none => rw [switchToNote_of_absent _ _ hl]
          | some m => rw [switchToNote_of_present _ _ m hl]
      · rw [deleteNote_of_other st env x n hx hc hcx]

/-- C12 at the sample data: the user declines the deletion of note A. -/
theorem deleteNote_needs_confirmation_witness :
    editingState.notes.get sampleIdA = some sampleNoteA ∧
    (deleteNote editingState { sampleEnv with confirm := false } sampleIdA).notes
      = editingState.notes ∧
    (deleteNote editingState { sampleEnv with confirm := false } sampleIdA).storedNotes
      = editingState.storedNotes ∧
    (deleteNote editingState { sampleEnv with confirm := false } sampleIdA).currentNoteId
      = editingState.currentNoteId :=
  ⟨by decide,
   (deleteNote_needs_confirmation editingState { sampleEnv with confirm := false }
      sampleIdA sampleNoteA (by decide)).1 rfl⟩

/-- On the identifiers of `NoteId`:
if every entry of the store has an `id` field equal to the key it is
stored under, the same holds after `saveToLocalStorage` (create and update
branch), `createFirstNote`, `createNewNote` and `deleteNote`, and of the
persisted store the first three write. Hence the `id` field of every note of
the store, and of the store after a deletion, is a key of that store: the id
`deleteNote` reads from a note keeps the current note id within the store, and
so does the id `loadCurrentNote` reads from a note of a persisted store with
the property. -/
theorem keysMatchIds_invariant (st : AppState) (env : Env) (c : JSString) (x : NoteId)
    (h : KeysMatchIds st.notes) :
    (KeysMatchIds (saveToLocalStorage st env c).notes ∧
      KeysMatchIds (createFirstNote st env).notes ∧
      KeysMatchIds (createNewNote st env).notes ∧
      KeysMatchIds (deleteNote st env x).notes) ∧
    (KeysMatchIds (loadNotesFromStorage (saveToLocalStorage st env c)).notes ∧
      KeysMatchIds (loadNotesFromStorage (createFirstNote st env)).notes ∧
      KeysMatchIds (loadNotesFromStorage (createNewNote st env)).notes) ∧
    (∀ n ∈ getAllNotes st.notes, n.id ∈ st.notes.keys) ∧
    (∀ n ∈ getAllNotes (st.notes.erase x), n.id ∈ (st.notes.erase x).keys) ∧
    (CurrentInStore st → CurrentInStore (deleteNote st env x)) ∧
    (KeysMatchIds (loadNotesFromStorage st).notes →
      CurrentIsKey (loadCurrentNote st env)) := by
  have hsave : KeysMatchIds (saveToLocalStorage st env c).notes ∧
      KeysMatchIds (loadNotesFromStorage (saveToLocalStorage st env c)).notes := by
    obtain ⟨i, _, hn, hs⟩ := saveToLocalStorage_notes st env c
    have hu := KeysMatchIds.upsert st.notes h i c env.now
    refine ⟨by rw [hn]; exact hu, ?_⟩
    unfold loadNotesFromStorage
    rw [hs]
    exact hu
  have hset : ∀ v : Note, v.id = generateNoteId env.dateNow env.random →
      KeysMatchIds (st.notes.set (generateNoteId env.dateNow env.random) v) :=
    fun v hv => KeysMatchIds.set st.notes h _ v hv
  refine ⟨⟨hsave.1, hset _ rfl, hset _ rfl, deleteNote_keysMatchIds st env x h⟩,
    ⟨hsave.2, hset _ rfl, hset _ rfl⟩,
    fun n hn => KeysMatchIds.of_getAllNotes _ h n hn,
    fun n hn => KeysMatchIds.of_getAllNotes _ (KeysMatchIds.erase _ h x) n hn, ?_,
    fun hs => loadCurrentNote_currentIsKey st env hs⟩
  intro hcur
  cases hx : st.notes.get x with
  | none => rw [deleteNote_of_absent st env x hx]; exact hcur
  | some n =>
    cases hc : env.confirm with
    | false => rw [deleteNote_of_declined st env x n hx hc]; exact hcur
    | true =>
      by_cases hcx : st.currentNoteId = some x
      · by_cases hrem : st.notes.erase x = []
        · rw [deleteNote_of_current_last st env x n hx hc hcx hrem]
          obtain ⟨k, hk, hkm⟩ := createNewNote_currentIsKey
            { st with confirmCount := st.confirmCount + 1, notes := [],
                      storedNotes := .json [] } env
          intro k1 hk1
          rw [hk] at hk1
          cases hk1
          exact hkm
        · obtain ⟨latest, hl, _, heq⟩ := deleteNote_of_current_more st env x n hx hc hcx hrem
          have hkey : latest.id ∈ (st.notes.erase x).keys :=
            KeysMatchIds.of_getAllNotes _ (KeysMatchIds.erase _ h x) latest hl
          obtain ⟨m, hm⟩ := Option.isSome_iff_exists.mp ((Store.mem_keys_iff _ _).mp hkey)
          rw [heq, switchToNote_of_present _ _ m hm]
          intro k1 hk1
          cases hk1
          exact hkey
      · rw [deleteNote_of_other st env x n hx hc hcx]
        intro k1 hk1
        have hne : k1 ≠ x := fun hkx => hcx (by rw [← hkx]; exact hk1)
        exact Store.mem_keys_erase_of_ne _ _ _ (hcur k1 hk1) hne

/-- At the sample data: the sample store keeps the property through a
save and through the confirmed deletion of the current note. -/
theorem keysMatchIds_invariant_witness :
    KeysMatchIds editingState.notes ∧
    KeysMatchIds (saveToLocalStorage editingState sampleEnv (lit "Hi")).notes ∧
    KeysMatchIds (deleteNote editingState sampleEnv sampleIdA).notes :=
  ⟨by decide,
   (keysMatchIds_invariant editingState sampleEnv (lit "Hi") sampleIdA (by decide)).1.1,
   (keysMatchIds_invariant editingState sampleEnv (lit "Hi") sampleIdA (by decide)).1.2.2.2⟩

/-- On the identifiers of `NoteId`, with every write accepted:
`saveToLocalStorage` changes only the entry of the current note: for
every store, current id `i` and content `c`, the keys afterwards are the keys
before with `i` added (last, when it is new), every entry under a key other
than `i` is unchanged, the current note id is still `i`, and both the
last-edited marker and the URL note parameter equal `i`. -/
theorem saveToLocalStorage_frame (st : AppState) (env : Env) (c : JSString) (i : NoteId)
    (hi : st.currentNoteId = some i) :
    (∀ k, k ∈ (saveToLocalStorage st env c).notes.keys ↔ k ∈ st.notes.keys ∨ k = i) ∧
    (saveToLocalStorage st env c).notes.keys
      = (if i ∈ st.notes.keys then st.notes.keys else st.notes.keys ++ [i]) ∧
    (∀ k, k ≠ i → (saveToLocalStorage st env c).notes.get k = st.notes.get k) ∧
    (saveToLocalStorage st env c).currentNoteId = some i ∧
    (saveToLocalStorage st env c).lastNote = some i ∧
    (saveToLocalStorage st env c).urlNote = some i := by
  rw [saveToLocalStorage_of_some st env c i hi]
  exact ⟨fun k => upsert_mem_keys_iff st.notes i k c env.now,
    upsert_keys st.notes i c env.now,
    fun k hk => upsert_get_of_ne st.notes i k c env.now hk, rfl, rfl, rfl⟩

/-- At the sample data: saving while note A is current leaves note B as it
is and the keys as they are. -/
theorem saveToLocalStorage_frame_witness :
    editingState.currentNoteId = some sampleIdA ∧
    (saveToLocalStorage editingState sampleEnv (lit "Hi")).notes.get sampleIdB
      = some sampleNoteB ∧
    (saveToLocalStorage editingState sampleEnv (lit "Hi")).notes.keys
      = [sampleIdA, sampleIdB] ∧
    (saveToLocalStorage editingState sampleEnv (lit "Hi")).lastNote = some sampleIdA :=
  ⟨rfl,
   ((saveToLocalStorage_frame editingState sampleEnv (lit "Hi") sampleIdA rfl).2.2.1
      sampleIdB (by decide)).trans (by decide),
   ((saveToLocalStorage_frame editingState sampleEnv (lit "Hi") sampleIdA rfl).2.1).trans
      (by decide),
   (saveToLocalStorage_frame editingState sampleEnv (lit "Hi") sampleIdA rfl).2.2.2.2.1⟩

/-! ## Sidebar and download: lemmas -/

theorem getAllNotes_cons_of_not_mem (k : NoteId) (v : Note) (t : Store)
    (hk : k ∉ Store.keys t) : getAllNotes ((k, v) :: t) = v :: getAllNotes t := by
  unfold getAllNotes
  have hcongr : List.filterMap (Store.get ((k, v) :: t)) (Store.keys t)
      = List.filterMap (Store.get t) (Store.keys t) := by
    apply List.filterMap_congr
    intro k1 hk1
    have hne : k1 ≠ k := fun h => hk (h ▸ hk1)
    rw [Store.get_cons, if_neg hne]
  have hkeys : Store.keys ((k, v) :: t) = k :: Store.keys t := rfl
  rw [hkeys, List.filterMap_cons, Store.get_cons, if_pos rfl, hcongr]

/-- In a store whose keys are pairwise different, the notes of the store are
the values of its entries, each once. -/
theorem getAllNotes_eq_map_of_nodup (s : Store) (h : s.keys.Nodup) :
    getAllNotes s = s.map Prod.snd := by
  induction s with
  | nil => rfl
  | cons e t ih =>
    obtain ⟨k, v⟩ := e
    have hk : k ∉ Store.keys t := (List.nodup_cons.mp h).1
    rw [getAllNotes_cons_of_not_mem k v t hk, ih (List.nodup_cons.mp h).2]
    rfl

theorem updateSidebar_entries_of_ne (st : AppState) (hne : st.notes ≠ []) :
    (updateSidebar st).entries
      = some ((sortByUpdatedDesc (getAllNotes st.notes)).map
          (fun note => { note := note, isActive := decide (some note.id = st.currentNoteId) })) := by
  have hlen : st.notes.keys.length ≠ 0 := by
    simpa [Store.keys] using hne
  unfold updateSidebar
  simp only [hlen, if_false]
  rfl

set_option maxRecDepth 100000 in
theorem matchesNonAlnum_below (c : Nat) (hc : c < 128) :
    matchesNonAlnum c = !(isAsciiAlnum c) := by
  revert c
  decide

theorem canonicalize_classMembers (a : Nat) (ha : a ∈ classMembers) : canonicalize a < 128 := by
  revert a
  decide

theorem matchesNonAlnum_eq (c : Nat) : matchesNonAlnum c = !(isAsciiAlnum c) := by
  by_cases hc : c < 128
  · exact matchesNonAlnum_below c hc
  · have hge : 128 ≤ c := Nat.le_of_not_lt hc
    have hcan : canonicalize c = c := by
      unfold canonicalize
      rw [if_neg]
      omega
    have hno : classMembers.any (fun a => canonicalize a == canonicalize c) = false := by
      rw [List.any_eq_false]
      intro a ha
      have := canonicalize_classMembers a ha
      rw [hcan]
      simp only [beq_iff_eq]
      omega
    have halnum : isAsciiAlnum c = false := by
      unfold isAsciiAlnum
      simp only [Bool.or_eq_false_iff, Bool.and_eq_false_iff, decide_eq_false_iff_not]
      omega
    unfold matchesNonAlnum
    rw [hno, halnum]

theorem sanitise_unit (c : Nat) :
    (fun c => if 65 ≤ c ∧ c ≤ 90 then c + 32 else c)
        ((fun c => if matchesNonAlnum c = true then 95 else c) c)
      = sanitisedUnit c := by
  unfold sanitisedUnit
  simp only [matchesNonAlnum_eq]
  cases h : isAsciiAlnum c <;> simp

/-- The sanitised title, character by character. -/
theorem toLowerCase_replaceNonAlnum (t : JSString) :
    toLowerCase (replaceNonAlnum t) = t.map sanitisedUnit := by
  unfold toLowerCase replaceNonAlnum
  rw [List.map_map]
  apply List.map_congr_left
  intro c _
  exact sanitise_unit c

theorem sanitisedUnit_range (c : Nat) : isLowerDigitUnderscore (sanitisedUnit c) = true := by
  unfold sanitisedUnit isLowerDigitUnderscore
  cases h : isAsciiAlnum c with
  | false => simp
  | true =>
    unfold isAsciiAlnum at h
    simp only [Bool.or_eq_true, Bool.and_eq_true, decide_eq_true_eq] at h
    simp only [if_true, Bool.or_eq_true, Bool.and_eq_true, decide_eq_true_eq, beq_iff_eq]
    by_cases hu : 65 ≤ c ∧ c ≤ 90
    · rw [if_pos hu]; omega
    · rw [if_neg hu]; omega

/-! ## Claims on the sidebar and on the download name -/

/-- C13: for every non-empty store, the sequence of notes `updateSidebar`
renders is a permutation of the notes of the store (which are the values of
its entries, each once, the keys of an object being pairwise different),
ordered by non-increasing `updatedAt`, and an entry is marked active exactly
when the id of its note is the current note id. -/
theorem updateSidebar_sorted_perm (st : AppState) (hne : st.notes ≠ []) :
    ∃ entries, (updateSidebar st).entries = some entries ∧
      (entries.map SidebarEntry.note).Perm (getAllNotes st.notes) ∧
      (st.notes.keys.Nodup →
        (entries.map SidebarEntry.note).Perm (st.notes.map Prod.snd)) ∧
      (entries.map SidebarEntry.note).Pairwise (fun a b => b.updatedAt ≤ a.updatedAt) ∧
      (∀ e ∈ entries, e.isActive = true ↔ st.currentNoteId = some e.note.id) := by
  have hmap : ((sortByUpdatedDesc (getAllNotes st.notes)).map
      (fun note : Note =>
        ({ note := note, isActive := decide (some note.id = st.currentNoteId) } :
          SidebarEntry))).map SidebarEntry.note = sortByUpdatedDesc (getAllNotes st.notes) := by
    rw [List.map_map]
    exact List.map_id _
  have hperm : (sortByUpdatedDesc (getAllNotes st.notes)).Perm (getAllNotes st.notes) :=
    List.perm_insertionSort moreRecent _
  refine ⟨_, updateSidebar_entries_of_ne st hne, ?_, ?_, ?_, ?_⟩
  · rw [hmap]; exact hperm
  · intro hnodup
    rw [hmap, ← getAllNotes_eq_map_of_nodup st.notes hnodup]
    exact hperm
  · rw [hmap]
    exact List.sorted_insertionSort moreRecent _
  · intro e he
    obtain ⟨n, _, hn⟩ := List.mem_map.mp he
    rw [← hn]
    simp only [decide_eq_true_eq]
    exact ⟨fun h => h.symm, fun h => h.symm⟩

/-- C13 at the sample data: A and B are stored, A is current; B, the more
recent, comes first and A is the active entry. -/
theorem updateSidebar_sorted_perm_witness :
    editingState.notes ≠ [] ∧
    (updateSidebar editingState).entries
      = some [{ note := sampleNoteB, isActive := false },
              { note := sampleNoteA, isActive := true }] ∧
    ∃ entries, (updateSidebar editingState).entries = some entries ∧
      (entries.map SidebarEntry.note).Perm (getAllNotes editingState.notes) ∧
      (editingState.notes.keys.Nodup →
        (entries.map SidebarEntry.note).Perm (editingState.notes.map Prod.snd)) ∧
      (entries.map SidebarEntry.note).Pairwise (fun a b => b.updatedAt ≤ a.updatedAt) ∧
      (∀ e ∈ entries, e.isActive = true ↔ editingState.currentNoteId = some e.note.id) :=
  ⟨by decide, by decide, updateSidebar_sorted_perm editingState (by decide)⟩

/-- C14: for every note title `t` and format `f`, the file name
`clientSideDownload` builds is `s + '.' + f`, where `s` has the length of `t`,
every character of `s` is a lower-case ASCII letter, a digit or `_`, each
ASCII letter or digit of `t` is kept at its position, in lower case, and every
other character of `t` is replaced by `_`; the title `My Note: v2!` with the
format `md` gives `my_note__v2_.md`. -/
theorem clientSideDownload_filename (note : Note) (format : JSString) :
    (∃ s : JSString, (clientSideDownload note format).filename = s ++ lit "." ++ format ∧
      s.length = note.title.length ∧
      (∀ c ∈ s, isLowerDigitUnderscore c = true) ∧
      (∀ (i : Nat) (c : Nat), note.title[i]? = some c →
        (isAsciiAlnum c = true →
          s[i]? = some (if 65 ≤ c ∧ c ≤ 90 then c + 32 else c)) ∧
        (isAsciiAlnum c = false → s[i]? = some 95))) ∧
    (clientSideDownload sampleNoteD (lit "md")).filename = lit "my_note__v2_.md" := by
  refine ⟨⟨note.title.map sanitisedUnit, ?_, List.length_map _ _, ?_, ?_⟩, by decide⟩
  · unfold clientSideDownload
    rw [toLowerCase_replaceNonAlnum]
  · intro c hc
    obtain ⟨c0, _, h0⟩ := List.mem_map.mp hc
    rw [← h0]
    exact sanitisedUnit_range c0
  · intro i c hic
    rw [List.getElem?_map, hic]
    constructor
    · intro h
      simp [sanitisedUnit, h]
    · intro h
      simp [sanitisedUnit, h]

/-! ## The program on every identifier: what it does at the names of `Object.prototype` -/

namespace Raw

set_option maxRecDepth 10000

/-- C1 fails on the code. The page opens on `?note=constructor` with the
sample store persisted (A and B) and B as the note edited last. The store is
not empty, `constructor` is no key of it and the marker `note_2_b` is one, so
the claim selects B; `loadCurrentNote` takes the URL branch, because
`notes['constructor']` is the inherited function, and makes `constructor` the
current note id. -/
theorem loadCurrentNote_inherited_url_name :
    (loadNotesFromStorage constructorUrlState sampleEnv).notes
      = some { own := sampleOwn, proto := none } ∧
    sampleOwn ≠ [] ∧
    constructorUrlState.urlNote = some (lit "constructor") ∧
    lit "constructor" ∉ sampleOwn.map Prod.fst ∧
    constructorUrlState.lastNote = some (lit "note_2_b") ∧
    lit "note_2_b" ∈ sampleOwn.map Prod.fst ∧
    (loadCurrentNote constructorUrlState sampleEnv).currentNoteId = some (lit "constructor") ∧
    (loadCurrentNote constructorUrlState sampleEnv).currentNoteId ≠ some (lit "note_2_b") := by
  decide

/-- C9 fails on the code. The page opens on `?note=constructor` with the
sample store persisted and no marker: neither names a store entry, and B is
the note updated last. `loadCurrentNote` makes `constructor` the current note
id, which is the `id` of no note of the store, and leaves the URL as it is. -/
theorem loadCurrentNote_inherited_name_not_most_recent :
    (loadNotesFromStorage constructorOnlyUrlState sampleEnv).notes
      = some { own := sampleOwn, proto := none } ∧
    lit "constructor" ∉ sampleOwn.map Prod.fst ∧
    constructorOnlyUrlState.lastNote = none ∧
    (loadCurrentNote constructorOnlyUrlState sampleEnv).currentNoteId
      = some (lit "constructor") ∧
    (∀ n ∈ getAllNotes { own := sampleOwn, proto := none },
      (loadCurrentNote constructorOnlyUrlState sampleEnv).currentNoteId ≠ n.id) ∧
    (loadCurrentNote constructorOnlyUrlState sampleEnv).urlNote = some (lit "constructor") := by
  decide

/-- C2 fails on the code. With `constructor` as current note id, which
`loadCurrentNote` leaves on `?note=constructor`, and no such key in the store,
`saveToLocalStorage` takes the update branch, because `notes['constructor']`
is the inherited function, and stores under `constructor` a record with
neither `id` nor `createdAt`. -/
theorem saveToLocalStorage_inherited_name :
    loadCurrentNote constructorUrlState sampleEnv = constructorCurrentState ∧
    constructorCurrentState.currentNoteId = some (lit "constructor") ∧
    sampleOwn.lookup (lit "constructor") = none ∧
    (saveToLocalStorage constructorCurrentState sampleEnv (lit "x")).notes
      = some { own := sampleOwn ++ [(lit "constructor",
                 { id := none, title := lit "x", content := lit "x", createdAt := none,
                   updatedAt := 3, indexed := none })],
               proto := none } := by
  decide

/-- C11 fails on the code. `constructor` is no key of the sample store, and
yet `switchToNote('constructor')` makes it the current note id and puts it in
the URL, and `deleteNote('constructor')` shows the confirmation dialog. On the
page opened on `?note=constructor`, where `deleteCurrentNote` calls
`deleteNote('constructor')`, the confirmed call shows the dialog, makes B the
current note and puts B in the URL. -/
theorem switchToNote_deleteNote_inherited_name :
    lit "constructor" ∉ sampleOwn.map Prod.fst ∧
    editingState.notes = some { own := sampleOwn, proto := none } ∧
    (switchToNote editingState (some (lit "constructor"))).currentNoteId
      = some (lit "constructor") ∧
    (switchToNote editingState (some (lit "constructor"))).urlNote
      = some (lit "constructor") ∧
    switchToNote editingState (some (lit "constructor")) ≠ editingState ∧
    (deleteNote editingState sampleEnv (lit "constructor")).confirmCount
      = editingState.confirmCount + 1 ∧
    deleteNote editingState sampleEnv (lit "constructor") ≠ editingState ∧
    constructorCurrentState.notes = some { own := sampleOwn, proto := none } ∧
    sampleEnv.confirm = true ∧
    deleteNote constructorCurrentState sampleEnv (lit "constructor")
      = { constructorCurrentState with
            currentNoteId := some (lit "note_2_b"), urlNote := some (lit "note_2_b"),
            confirmCount := 1 } := by
  decide

/-- C15 fails on the code. Every entry of the sample store has its key as
`id` field. With `constructor` as current note id, `saveToLocalStorage` takes
the update branch and leaves, under the key `constructor`, an entry without an
`id` field. -/
theorem saveToLocalStorage_breaks_keysMatchIds :
    constructorCurrentState.notes = some { own := sampleOwn, proto := none } ∧
    KeysMatchIds sampleOwn ∧
    (saveToLocalStorage constructorCurrentState sampleEnv (lit "x")).notes
      = some { own := sampleOwn ++ [(lit "constructor",
                 { id := none, title := lit "x", content := lit "x", createdAt := none,
                   updatedAt := 3, indexed := none })],
               proto := none } ∧
    ¬ KeysMatchIds (sampleOwn ++ [(lit "constructor",
        { id := none, title := lit "x", content := lit "x", createdAt := none,
          updatedAt := 3, indexed := none })]) := by
  decide

/-- C16 fails on the code, twice. With `__proto__` as current note id, which
`loadCurrentNote` leaves on `?note=__proto__`, the assignment `notes['__proto__'] = ...` replaces the prototype of `notes`: the
keys afterwards are the keys before, without `__proto__`. With note A current
and a storage that rejects every write, `saveToLocalStorage` ends at the
write of the marker: the marker and the URL note parameter are still unset. -/
theorem saveToLocalStorage_frame_fails :
    (loadCurrentNote { constructorUrlState with urlNote := some (lit "__proto__") } sampleEnv
        = protoCurrentState ∧
      protoCurrentState.currentNoteId = some (lit "__proto__") ∧
      (saveToLocalStorage protoCurrentState sampleEnv (lit "x")).notes
        = some { own := sampleOwn,
                 proto := some { title := lit "x", content := lit "x", updatedAt := 3 } } ∧
      lit "__proto__" ∉ sampleOwn.map Prod.fst) ∧
    (editingState.currentNoteId = some (lit "note_1_a") ∧
      (saveToLocalStorage editingState fullStorageEnv (lit "Hi")).currentNoteId
        = some (lit "note_1_a") ∧
      (saveToLocalStorage editingState fullStorageEnv (lit "Hi")).lastNote = none ∧
      (saveToLocalStorage editingState fullStorageEnv (lit "Hi")).urlNote = none) := by
  decide

/-! ### Own properties: lemmas -/

theorem lookup_cons (k k0 : JSString) (v : NoteRec) (t : List (JSString × NoteRec)) :
    List.lookup k ((k0, v) :: t) = if k = k0 then some v else List.lookup k t := by
  rw [List.lookup_cons]
  by_cases h : k = k0
  · simp [h]
  · have : (k == k0) = false := by simpa using h
    simp [h, this]

theorem mem_keys_iff_lookup (own : List (JSString × NoteRec)) (k : JSString) :
    k ∈ own.map Prod.fst ↔ (List.lookup k own).isSome = true := by
  induction own with
  | nil => simp
  | cons e t ih =>
    obtain ⟨k0, v⟩ := e
    rw [lookup_cons]
    by_cases h : k = k0
    · simp [h]
    · simp [h, ih]

theorem mem_keys_of_lookup (own : List (JSString × NoteRec)) (k : JSString) (r : NoteRec)
    (h : List.lookup k own = some r) : k ∈ own.map Prod.fst := by
  rw [mem_keys_iff_lookup, h]; rfl

theorem lookup_eq_none_of_not_mem (own : List (JSString × NoteRec)) (k : JSString)
    (h : k ∉ own.map Prod.fst) : List.lookup k own = none := by
  cases hl : List.lookup k own with
  | none => rfl
  | some r => exact absurd (mem_keys_of_lookup own k r hl) h

theorem mem_of_lookup (own : List (JSString × NoteRec)) (k : JSString) (r : NoteRec)
    (h : List.lookup k own = some r) : (k, r) ∈ own := by
  induction own with
  | nil => simp at h
  | cons e t ih =>
    obtain ⟨k0, v⟩ := e
    rw [lookup_cons] at h
    by_cases hk : k = k0
    · simp only [hk, if_true, Option.some.injEq] at h
      simp [hk, h]
    · simp only [hk, if_false] at h
      exact List.mem_cons_of_mem _ (ih h)

theorem lookup_map_replace (own : List (JSString × NoteRec)) (k k1 : JSString) (r : NoteRec) :
    List.lookup k1 (own.map (fun e => if e.1 = k then (k, r) else e))
      = if k1 = k then (List.lookup k own).map (fun _ => r) else List.lookup k1 own := by
  induction own with
  | nil => simp
  | cons e t ih =>
    obtain ⟨k0, v0⟩ := e
    by_cases h0 : k0 = k
    · subst h0
      simp only [List.map_cons, if_true, lookup_cons, ih]
      by_cases h1 : k1 = k0
      · simp [h1]
      · simp [h1]
    · simp only [List.map_cons, h0, if_false, lookup_cons, ih]
      by_cases h1 : k1 = k
      · have : ¬ k = k0 := fun h => h0 h.symm
        simp [h1, this]
      · simp [h1]

theorem lookup_append_single (own : List (JSString × NoteRec)) (k k1 : JSString)
    (r : NoteRec) :
    List.lookup k1 (own ++ [(k, r)])
      = match List.lookup k1 own with
        | some n => some n
        | none => if k1 = k then some r else none := by
  induction own with
  | nil => simp [lookup_cons]
  | cons e t ih =>
    obtain ⟨k0, v0⟩ := e
    simp only [List.cons_append, lookup_cons, ih]
    by_cases h : k1 = k0
    · simp [h]
    · simp [h]

theorem lookup_insertIndexed (n : Nat) (k k1 : JSString) (r : NoteRec) :
    ∀ own : List (JSString × NoteRec), List.lookup k own = none →
      List.lookup k1 (insertIndexed n k r own)
        = if k1 = k then some r else List.lookup k1 own := by
  intro own
  induction own with
  | nil =>
    intro _
    simp [insertIndexed, lookup_cons]
  | cons e t ih =>
    obtain ⟨k0, v0⟩ := e
    intro hk
    rw [lookup_cons] at hk
    have hne : ¬ k = k0 := by
      intro h
      rw [if_pos h] at hk
      cases hk
    rw [if_neg hne] at hk
    have hfront : List.lookup k1 ((k, r) :: (k0, v0) :: t)
        = if k1 = k then some r else List.lookup k1 ((k0, v0) :: t) := lookup_cons _ _ _ _
    unfold insertIndexed
    cases harr : arrayIndex k0 with
    | none => simpa [harr] using hfront
    | some m =>
      by_cases hlt : n < m
      · simpa [harr, hlt] using hfront
      · simp only [harr, hlt, if_false, lookup_cons, ih hk]
        by_cases h1 : k1 = k
        · have : ¬ k1 = k0 := fun h => hne (h1.symm.trans h)
          simp [h1, this, hne]
        · simp [h1]

theorem lookup_setOwn (own : List (JSString × NoteRec)) (k k1 : JSString) (r : NoteRec) :
    List.lookup k1 (setOwn own k r) = if k1 = k then some r else List.lookup k1 own := by
  unfold setOwn
  cases hl : List.lookup k own with
  | some old =>
    simp only [Option.isSome_some, if_true, lookup_map_replace, hl, Option.map_some']
  | none =>
    simp only [Option.isSome_none, Bool.false_eq_true, if_false]
    cases harr : arrayIndex k with
    | some n => exact lookup_insertIndexed n k k1 r own hl
    | none =>
      simp only [lookup_append_single]
      by_cases h1 : k1 = k
      · rw [h1, hl]
      · cases List.lookup k1 own <;> simp [h1]

theorem mem_keys_setOwn (own : List (JSString × NoteRec)) (k k1 : JSString) (r : NoteRec) :
    k1 ∈ (setOwn own k r).map Prod.fst ↔ k1 ∈ own.map Prod.fst ∨ k1 = k := by
  rw [mem_keys_iff_lookup, mem_keys_iff_lookup, lookup_setOwn]
  by_cases h : k1 = k
  · simp [h]
  · simp [h]

theorem setOwn_nil (k : JSString) (r : NoteRec) : setOwn [] k r = [(k, r)] := by
  unfold setOwn
  cases arrayIndex k <;> simp [insertIndexed]

theorem lookup_delete (own : List (JSString × NoteRec)) (k k1 : JSString) :
    List.lookup k1 (own.filter (fun e => decide (e.1 ≠ k)))
      = if k1 = k then none else List.lookup k1 own := by
  induction own with
  | nil => simp
  | cons e t ih =>
    obtain ⟨k0, v0⟩ := e
    by_cases h0 : k0 = k
    · have hf : List.filter (fun e => decide (e.1 ≠ k)) ((k0, v0) :: t)
          = List.filter (fun e => decide (e.1 ≠ k)) t := by
        simp [h0]
      rw [hf, ih, lookup_cons]
      by_cases h1 : k1 = k
      · simp [h1]
      · have : ¬ k1 = k0 := fun h => h1 (h.trans h0)
        simp [h1, this]
    · have hf : List.filter (fun e => decide (e.1 ≠ k)) ((k0, v0) :: t)
          = (k0, v0) :: List.filter (fun e => decide (e.1 ≠ k)) t := by
        simp [h0]
      rw [hf, lookup_cons, lookup_cons, ih]
      by_cases h1 : k1 = k
      · have : ¬ k = k0 := fun h => h0 h.symm
        simp [h1, this]
      · simp [h1]

theorem mem_getAllNotes_raw (o : NotesObj) (n : NoteRec) :
    n ∈ getAllNotes o ↔ ∃ k, List.lookup k o.own = some n := by
  unfold getAllNotes NotesObj.keys
  rw [List.mem_filterMap]
  constructor
  · rintro ⟨k, _, hk⟩
    exact ⟨k, hk⟩
  · rintro ⟨k, hk⟩
    exact ⟨k, mem_keys_of_lookup o.own k n hk, hk⟩

theorem getAllNotes_ne_nil_raw (o : NotesObj) (h : o.own ≠ []) : getAllNotes o ≠ [] := by
  obtain ⟨own, proto⟩ := o
  cases own with
  | nil => exact absurd rfl h
  | cons e t =>
    obtain ⟨k0, v0⟩ := e
    have : v0 ∈ getAllNotes { own := (k0, v0) :: t, proto := proto } :=
      (mem_getAllNotes_raw _ _).mpr ⟨k0, by simp [lookup_cons]⟩
    exact List.ne_nil_of_mem this

theorem getAllNotes_nil_raw (proto : Option ProtoRec) :
    getAllNotes { own := [], proto := proto } = [] := rfl

theorem sortByUpdatedDesc_head_raw (l : List NoteRec) (a : NoteRec) (t : List NoteRec)
    (h : sortByUpdatedDesc l = a :: t) :
    a ∈ l ∧ ∀ b ∈ l, b.updatedAt ≤ a.updatedAt := by
  have hperm : (a :: t).Perm l := h ▸ List.perm_insertionSort moreRecent l
  have hsorted : List.Sorted moreRecent (a :: t) := h ▸ List.sorted_insertionSort moreRecent l
  refine ⟨hperm.mem_iff.mp (List.mem_cons_self a t), fun b hb => ?_⟩
  rcases List.mem_cons.mp (hperm.mem_iff.mpr hb) with hba | hbt
  · rw [hba]
  · exact List.rel_of_sorted_cons hsorted b hbt

theorem sortByUpdatedDesc_ne_nil_raw (l : List NoteRec) (h : l ≠ []) :
    sortByUpdatedDesc l ≠ [] := by
  intro h0
  have hperm : ([] : List NoteRec).Perm l := h0 ▸ List.perm_insertionSort moreRecent l
  exact h hperm.symm.eq_nil

/-! ### Reads, identifiers and assignments: lemmas -/

theorem read_of_lookup (o : NotesObj) (k : JSString) (r : NoteRec)
    (h : List.lookup k o.own = some r) : o.read k = .record r := by
  unfold NotesObj.read
  rw [h]

theorem read_truthy_of_mem (o : NotesObj) (k : JSString) (h : k ∈ o.keys) :
    (o.read k).truthy = true := by
  obtain ⟨r, hr⟩ := Option.isSome_iff_exists.mp ((mem_keys_iff_lookup o.own k).mp h)
  rw [read_of_lookup o k r hr]
  rfl

/-- With the original prototype, a name that is no member of `Object.prototype`
passes the guard `notes[k]` only as a key of the store. -/
theorem mem_keys_of_read_truthy (o : NotesObj) (k : JSString) (hproto : o.proto = none)
    (hk : objectPrototypeNames.contains k = false) (h : (o.read k).truthy = true) :
    k ∈ o.keys := by
  cases hl : List.lookup k o.own with
  | some r => exact mem_keys_of_lookup o.own k r hl
  | none =>
    unfold NotesObj.read at h
    rw [hl, hproto] at h
    simp only [hk] at h
    cases h

theorem toUSV_of_lt : ∀ s : JSString, (∀ c ∈ s, c < 55296) → toUSV s = s
  | [], _ => rfl
  | [c], h => by
    have hc : c < 55296 := h c (List.mem_singleton.mpr rfl)
    unfold toUSV
    rw [if_neg (by omega)]
  | c :: d :: rest, h => by
    have hc : c < 55296 := h c (List.mem_cons_self _ _)
    have hrest : ∀ x ∈ d :: rest, x < 55296 := fun x hx => h x (List.mem_cons_of_mem _ hx)
    unfold toUSV
    rw [if_neg (by omega), if_neg (by omega), toUSV_of_lt (d :: rest) hrest]

theorem digitChar_toNat_lt (d : Nat) : (Nat.digitChar d).toNat < 128 := by
  rcases Nat.lt_or_ge d 16 with h | h
  · interval_cases d <;> decide
  · have hstar : Nat.digitChar d = '*' := by
      unfold Nat.digitChar
      repeat (rw [if_neg (by omega)])
    rw [hstar]
    decide

theorem toDigitsCore_toNat_lt (b : Nat) : ∀ (f n : Nat) (ds : List Char),
    (∀ c ∈ ds, c.toNat < 128) → ∀ c ∈ Nat.toDigitsCore b f n ds, c.toNat < 128 := by
  intro f
  induction f with
  | zero =>
    intro n ds hds c hc
    exact hds c (by simpa [Nat.toDigitsCore] using hc)
  | succ f ih =>
    intro n ds hds c hc
    simp only [Nat.toDigitsCore] at hc
    have hds2 : ∀ c ∈ Nat.digitChar (n % b) :: ds, c.toNat < 128 := by
      intro c hc
      rcases List.mem_cons.mp hc with h | h
      · rw [h]; exact digitChar_toNat_lt _
      · exact hds c h
    split_ifs at hc
    · exact hds2 c hc
    · exact ih _ _ hds2 c hc

theorem lit_toString_lt (n : Nat) : ∀ c ∈ lit (toString n), c < 128 := by
  intro c hc
  unfold lit at hc
  obtain ⟨ch, hch, rfl⟩ := List.mem_map.mp hc
  have hrepr : toString n = (Nat.toDigits 10 n).asString := rfl
  rw [hrepr] at hch
  simp only [List.asString, Nat.toDigits] at hch
  exact toDigitsCore_toNat_lt 10 _ _ [] (by simp) ch hch

theorem base36Digit_lt (d : Fin 36) : base36Digit d < 128 := by
  unfold base36Digit
  have := d.isLt
  split_ifs <;> omega

theorem generateNoteId_lt (dateNow : Nat) (random : List (Fin 36)) :
    ∀ c ∈ generateNoteId dateNow random, c < 128 := by
  intro c hc
  unfold generateNoteId at hc
  simp only [List.mem_append] at hc
  have hlit : ∀ x ∈ lit "note_" ++ lit "_", x < 128 := by decide
  rcases hc with ((h | h) | h) | h
  · exact hlit c (List.mem_append_left _ h)
  · exact lit_toString_lt dateNow c h
  · exact hlit c (List.mem_append_right _ h)
  · obtain ⟨d, _, rfl⟩ := List.mem_map.mp h
    exact base36Digit_lt d

theorem toUSV_generateNoteId (dateNow : Nat) (random : List (Fin 36)) :
    toUSV (generateNoteId dateNow random) = generateNoteId dateNow random :=
  toUSV_of_lt _ (fun c hc => Nat.lt_trans (generateNoteId_lt dateNow random c hc) (by decide))

theorem generateNoteId_eq_cons (dateNow : Nat) (random : List (Fin 36)) :
    generateNoteId dateNow random
      = 110 :: (lit "ote_" ++ lit (toString dateNow) ++ lit "_" ++ random.map base36Digit) := by
  have hp : lit "note_" = 110 :: lit "ote_" := by decide
  unfold generateNoteId
  rw [hp]
  rfl

theorem generateNoteId_ne_nil (dateNow : Nat) (random : List (Fin 36)) :
    generateNoteId dateNow random ≠ [] := by
  rw [generateNoteId_eq_cons]
  exact List.cons_ne_nil _ _

theorem generateNoteId_ne_proto (dateNow : Nat) (random : List (Fin 36)) :
    generateNoteId dateNow random ≠ lit "__proto__" := by
  rw [generateNoteId_eq_cons]
  have hp : lit "__proto__" = 95 :: lit "_proto__" := by decide
  rw [hp]
  intro h
  have := (List.cons.inj h).1
  omega

theorem generateNoteId_not_inherited (dateNow : Nat) (random : List (Fin 36)) :
    objectPrototypeNames.contains (generateNoteId dateNow random) = false := by
  have hn : ∀ n ∈ objectPrototypeNames, n.head? ≠ some 110 := by decide
  rw [generateNoteId_eq_cons]
  cases hc : objectPrototypeNames.contains
      (110 :: (lit "ote_" ++ lit (toString dateNow) ++ lit "_" ++ random.map base36Digit)) with
  | false => rfl
  | true => exact absurd rfl (hn _ (List.elem_iff.mp hc))

theorem truthyId_ensureNoteId (st : State) (env : Env) : ensureNoteId st env ≠ [] := by
  unfold ensureNoteId
  cases st.currentNoteId with
  | none => exact generateNoteId_ne_nil _ _
  | some i =>
    by_cases hi : i = []
    · simp only [hi, if_true]; exact generateNoteId_ne_nil _ _
    · simp only [hi, if_false]; exact hi

/-- The assignment `notes[k] = r` defines or sets the own property `k`, unless
`k` is `__proto__` and no own property of that name exists. -/
theorem assign_lookup_self (o : NotesObj) (k : JSString) (r : NoteRec)
    (hk : k ≠ lit "__proto__" ∨ k ∈ o.keys) :
    List.lookup k (o.assign k r).own = some r ∧ (o.assign k r).proto = o.proto := by
  unfold NotesObj.assign
  by_cases hown : (List.lookup k o.own).isSome = true
  · simp only [hown, if_true, lookup_setOwn, and_self]
  · have hne : k ≠ lit "__proto__" := by
      rcases hk with h | h
      · exact h
      · exact absurd ((mem_keys_iff_lookup o.own k).mp h) hown
    simp only [hown, Bool.false_eq_true, if_false, hne, lookup_setOwn, if_true, and_self]

theorem assign_lookup_of_ne (o : NotesObj) (k k1 : JSString) (r : NoteRec) (hne : k1 ≠ k) :
    List.lookup k1 (o.assign k r).own = List.lookup k1 o.own := by
  unfold NotesObj.assign
  by_cases hown : (List.lookup k o.own).isSome = true
  · simp only [hown, if_true, lookup_setOwn, hne, if_false]
  · by_cases hp : k = lit "__proto__"
    · rw [if_neg hown, if_pos hp]
    · simp only [hown, Bool.false_eq_true, if_false, hp, lookup_setOwn, hne]

theorem assign_mem_keys (o : NotesObj) (k k1 : JSString) (r : NoteRec) (h : k1 ∈ o.keys) :
    k1 ∈ (o.assign k r).keys := by
  unfold NotesObj.keys at h ⊢
  by_cases hk : k1 = k
  · subst hk
    exact mem_keys_of_lookup _ _ r (assign_lookup_self o k1 r (Or.inr h)).1
  · rw [mem_keys_iff_lookup] at h ⊢
    rw [assign_lookup_of_ne o k k1 r hk]
    exact h

theorem assign_nil (k : JSString) (r : NoteRec) (hk : k ≠ lit "__proto__") :
    NotesObj.assign { own := [], proto := none } k r = { own := [(k, r)], proto := none } := by
  unfold NotesObj.assign
  simp [hk, setOwn_nil]

/-- Both branches of the create-or-update step assign, under the current note
id, a record with the content saved and its title. -/
theorem upsert_eq_assign (o : NotesObj) (id c : JSString) (now : Nat) :
    ∃ r : NoteRec, upsert o id c now = o.assign id r ∧ r.content = c ∧
      r.title = getNoteTitleFromContent c := by
  unfold upsert
  by_cases ht : (o.read id).truthy = true
  · simp only [ht, Bool.not_true, Bool.false_eq_true, if_false]
    refine ⟨_, rfl, ?_, ?_⟩
    · unfold spreadWith
      cases o.read id <;> rfl
    · unfold spreadWith
      cases o.read id <;> rfl
  · simp only [ht, Bool.not_false, if_true]
    exact ⟨_, rfl, rfl, rfl⟩

theorem upsert_lookup_self (o : NotesObj) (id c : JSString) (now : Nat)
    (hk : id ≠ lit "__proto__" ∨ id ∈ o.keys) :
    ∃ r : NoteRec, List.lookup id (upsert o id c now).own = some r ∧ r.content = c ∧
      r.title = getNoteTitleFromContent c := by
  obtain ⟨r, hr, hc, ht⟩ := upsert_eq_assign o id c now
  rw [hr]
  exact ⟨r, (assign_lookup_self o id r hk).1, hc, ht⟩

theorem upsert_mem_keys_self_raw (o : NotesObj) (id c : JSString) (now : Nat)
    (hk : id ≠ lit "__proto__" ∨ id ∈ o.keys) : id ∈ (upsert o id c now).keys := by
  obtain ⟨r, hr, _, _⟩ := upsert_lookup_self o id c now hk
  exact mem_keys_of_lookup _ _ r hr

/-! ### Saving and loading: lemmas -/

/-- What `saveToLocalStorage` leaves of the current note id, the store and the
slot, whether or not it reaches its end. -/
theorem saveToLocalStorage_fields (st : State) (env : Env) (c : JSString) (o : NotesObj)
    (hn : st.notes = some o) :
    (saveToLocalStorage st env c).currentNoteId = some (ensureNoteId st env) ∧
    (saveToLocalStorage st env c).notes
      = some (upsert o (ensureNoteId st env) c env.now) ∧
    (saveToLocalStorage st env c).storedNotes
      = (if env.notesWriteOk = true
         then some (env.jsonStringify (upsert o (ensureNoteId st env) c env.now).own)
         else st.storedNotes) ∧
    (saveToLocalStorage st env c).confirmCount = st.confirmCount := by
  unfold saveToLocalStorage saveNotesToStorage updateUrlForNote
  simp only [hn]
  cases env.notesWriteOk <;> cases env.markerWriteOk <;>
    simp only [Bool.false_eq_true, if_false, if_true, and_self] <;>
    (try split_ifs) <;> (try exact ⟨rfl, rfl, rfl, rfl⟩)

theorem loadNotesFromStorage_of_object (st : State) (env : Env) (text : JSString)
    (own : List (JSString × NoteRec)) (hs : st.storedNotes = some text) (ht : text ≠ [])
    (hp : env.jsonParse text = .object own) :
    (loadNotesFromStorage st env).notes = some { own := own, proto := none } := by
  unfold loadNotesFromStorage
  simp only [hs, ht, if_false, hp]

theorem loadNotesFromStorage_fields (st : State) (env : Env) :
    (loadNotesFromStorage st env).currentNoteId = st.currentNoteId ∧
    (loadNotesFromStorage st env).storedNotes = st.storedNotes ∧
    (loadNotesFromStorage st env).lastNote = st.lastNote ∧
    (loadNotesFromStorage st env).urlNote = st.urlNote ∧
    (loadNotesFromStorage st env).confirmCount = st.confirmCount := by
  unfold loadNotesFromStorage
  cases hst : st.storedNotes with
  | none => simp
  | some stored =>
    by_cases hs : stored = []
    · simp [hs, hst]
    · cases hp : env.jsonParse stored <;> simp [hs, hst, hp]

/-- With an empty store loaded, `loadCurrentNote` creates the welcome note. -/
theorem loadCurrentNote_of_empty_raw (st : State) (env : Env)
    (h : (loadNotesFromStorage st env).notes = some { own := [], proto := none }) :
    loadCurrentNote st env
      = { currentNoteId := some (generateNoteId env.dateNow env.random),
          notes := some { own := [(generateNoteId env.dateNow env.random, welcomeNote env)],
                          proto := none },
          storedNotes :=
            if env.notesWriteOk = true
            then some (env.jsonStringify
              [(generateNoteId env.dateNow env.random, welcomeNote env)])
            else st.storedNotes,
          lastNote := st.lastNote,
          urlNote := some (generateNoteId env.dateNow env.random),
          confirmCount := st.confirmCount } := by
  obtain ⟨_, h2, h3, _, h5⟩ := loadNotesFromStorage_fields st env
  unfold loadCurrentNote
  simp only [h, getAllNotes_nil_raw, List.length_nil, if_true]
  unfold createFirstNote saveNotesToStorage updateUrlForNote
  simp only [h, assign_nil _ _ (generateNoteId_ne_proto _ _), keyText, toUSV_generateNoteId,
    h2, h3, h5]
  cases env.notesWriteOk <;> simp [welcomeNote, h2]

/-! ## The program on every identifier: claims on persistence -/

/-- C3, as the code has it: for every content string `c`, every store and
every current note id other than `__proto__`, when `localStorage` accepts the
write of the store and `JSON.parse` gives back, from the text written, the
store `JSON.stringify` was given, `saveToLocalStorage` followed by
`loadNotesFromStorage` yields a store whose entry at the current note id has
the content `c` and the title of `c`. -/
theorem save_then_load_accepted (st : State) (env : Env) (c : JSString) (o : NotesObj)
    (hn : st.notes = some o)
    (hid : ensureNoteId st env ≠ lit "__proto__")
    (hw : env.notesWriteOk = true)
    (htext : env.jsonStringify (upsert o (ensureNoteId st env) c env.now).own ≠ [])
    (hrt : env.jsonParse (env.jsonStringify (upsert o (ensureNoteId st env) c env.now).own)
      = .object (upsert o (ensureNoteId st env) c env.now).own) :
    (saveToLocalStorage st env c).currentNoteId = some (ensureNoteId st env) ∧
    ∃ stored n,
      (loadNotesFromStorage (saveToLocalStorage st env c) env).notes
        = some { own := stored, proto := none } ∧
      List.lookup (ensureNoteId st env) stored = some n ∧
      n.content = c ∧ n.title = getNoteTitleFromContent c := by
  obtain ⟨hcur, _, hslot, _⟩ := saveToLocalStorage_fields st env c o hn
  rw [if_pos hw] at hslot
  obtain ⟨n, hlook, hc, ht⟩ :=
    upsert_lookup_self o (ensureNoteId st env) c env.now (Or.inl hid)
  exact ⟨hcur, _, n,
    loadNotesFromStorage_of_object _ env _ _ hslot htext hrt, hlook, hc, ht⟩

/-- C3 at the sample data: `Hi` is saved into note A and the store is read
back. -/
theorem save_then_load_accepted_witness :
    (saveToLocalStorage editingState sampleEnv (lit "Hi")).currentNoteId
      = some (lit "note_1_a") ∧
    ∃ stored n,
      (loadNotesFromStorage (saveToLocalStorage editingState sampleEnv (lit "Hi"))
        sampleEnv).notes = some { own := stored, proto := none } ∧
      List.lookup (lit "note_1_a") stored = some n ∧
      n.content = lit "Hi" ∧ n.title = getNoteTitleFromContent (lit "Hi") :=
  save_then_load_accepted editingState sampleEnv (lit "Hi")
    { own := sampleOwn, proto := none } rfl (by decide) rfl (by decide) (by decide)

/-- C3 as stated fails: with note A current and a storage that rejects every
write, `saveToLocalStorage('Hi')` followed by
`loadNotesFromStorage` yields the store of before, whose entry at the current
note id has the content `A`. -/
theorem save_then_load_rejected_write :
    (saveToLocalStorage editingState fullStorageEnv (lit "Hi")).currentNoteId
      = some (lit "note_1_a") ∧
    (loadNotesFromStorage (saveToLocalStorage editingState fullStorageEnv (lit "Hi"))
      fullStorageEnv).notes = some { own := sampleOwn, proto := none } ∧
    List.lookup (lit "note_1_a") sampleOwn = some noteA ∧
    noteA.content ≠ lit "Hi" := by
  decide

/-- C10, as the code has it: when the persisted store is empty or absent (or
does not parse, which the program treats alike), `loadCurrentNote` creates the
welcome note under a newly generated id; afterwards the store in memory holds
exactly that note, the current note id and the URL note parameter are the new
id, and the persisted slot holds the serialisation of that store when
`localStorage` accepts the write, and is left as it was when it does not. The
state reached mentions neither the URL parameter nor the current note id nor
the store in memory of the state before, and keeps the marker as it is. -/
theorem loadCurrentNote_welcome_persisted (st : State) (env : Env)
    (hslot : st.storedNotes = none ∨ st.storedNotes = some [] ∨
      ∃ text, st.storedNotes = some text ∧
        (env.jsonParse text = .object [] ∨ env.jsonParse text = .syntaxError)) :
    loadCurrentNote st env
      = { currentNoteId := some (generateNoteId env.dateNow env.random),
          notes := some { own := [(generateNoteId env.dateNow env.random, welcomeNote env)],
                          proto := none },
          storedNotes :=
            if env.notesWriteOk = true
            then some (env.jsonStringify
              [(generateNoteId env.dateNow env.random, welcomeNote env)])
            else st.storedNotes,
          lastNote := st.lastNote,
          urlNote := some (generateNoteId env.dateNow env.random),
          confirmCount := st.confirmCount } := by
  apply loadCurrentNote_of_empty_raw
  unfold loadNotesFromStorage
  rcases hslot with h | h | ⟨text, h, hp⟩
  · rw [h]
  · rw [h]; rfl
  · rw [h]
    by_cases ht : text = []
    · simp only [ht, if_true]
    · rcases hp with hp | hp <;> simp only [ht, if_false, hp]

/-- C10 at a page that opens with nothing in `localStorage` and a storage
that accepts the write. -/
theorem loadCurrentNote_welcome_persisted_witness :
    freshState.storedNotes = none ∧
    (loadCurrentNote freshState sampleEnv).currentNoteId = some (lit "note_3_c") ∧
    (loadCurrentNote freshState sampleEnv).notes
      = some { own := [(lit "note_3_c", welcomeNote sampleEnv)], proto := none } ∧
    (loadCurrentNote freshState sampleEnv).storedNotes
      = some (sampleEnv.jsonStringify [(lit "note_3_c", welcomeNote sampleEnv)]) ∧
    (loadCurrentNote freshState sampleEnv).urlNote = some (lit "note_3_c") :=
  ⟨rfl,
   by rw [loadCurrentNote_welcome_persisted freshState sampleEnv (Or.inl rfl)]; decide,
   by rw [loadCurrentNote_welcome_persisted freshState sampleEnv (Or.inl rfl)]; decide,
   by rw [loadCurrentNote_welcome_persisted freshState sampleEnv (Or.inl rfl)]; decide,
   by rw [loadCurrentNote_welcome_persisted freshState sampleEnv (Or.inl rfl)]; decide⟩

/-- C10 as stated fails: the page opens with nothing in `localStorage` and a
storage that rejects every write. `loadCurrentNote` creates the welcome note in
memory and the persisted slot is still empty: it does not hold the
serialisation of the store. -/
theorem loadCurrentNote_welcome_rejected_write :
    freshState.storedNotes = none ∧
    (loadCurrentNote freshState fullStorageEnv).notes
      = some { own := [(lit "note_3_c", welcomeNote fullStorageEnv)], proto := none } ∧
    (loadCurrentNote freshState fullStorageEnv).storedNotes = none ∧
    (loadCurrentNote freshState fullStorageEnv).storedNotes
      ≠ some (fullStorageEnv.jsonStringify [(lit "note_3_c", welcomeNote fullStorageEnv)]) := by
  decide

/-! ### The current note id: lemmas -/

theorem saveNotesToStorage_fields (st : State) (env : Env) (accepted : Bool) :
    (saveNotesToStorage st env accepted).currentNoteId = st.currentNoteId ∧
    (saveNotesToStorage st env accepted).notes = st.notes ∧
    (saveNotesToStorage st env accepted).confirmCount = st.confirmCount := by
  unfold saveNotesToStorage
  cases accepted with
  | false => exact ⟨rfl, rfl, rfl⟩
  | true => cases st.notes <;> exact ⟨rfl, rfl, rfl⟩

theorem passesGuard_mem (o : NotesObj) (id : Option JSString) (hproto : o.proto = none)
    (hid : ∀ u, id = some u → objectPrototypeNames.contains u = false)
    (h : passesGuard o id = true) : ∃ u, id = some u ∧ u ∈ o.keys := by
  cases id with
  | none => simp [passesGuard, truthyId] at h
  | some u =>
    unfold passesGuard at h
    rw [Bool.and_eq_true] at h
    exact ⟨u, rfl, mem_keys_of_read_truthy o u hproto (hid u rfl) h.2⟩

theorem saveToLocalStorage_currentIsKey_raw (st : State) (env : Env) (c : JSString)
    (o : NotesObj) (hn : st.notes = some o)
    (hid : ensureNoteId st env ≠ lit "__proto__" ∨ ensureNoteId st env ∈ o.keys) :
    CurrentIsKey (saveToLocalStorage st env c) := by
  obtain ⟨hcur, hnotes, _, _⟩ := saveToLocalStorage_fields st env c o hn
  exact ⟨_, _, hnotes, hcur, upsert_mem_keys_self_raw o _ c env.now hid⟩

theorem ensureNoteId_of_mem (st : State) (env : Env) (o : NotesObj)
    (hcur : ∀ k, st.currentNoteId = some k → k ∈ o.keys) :
    ensureNoteId st env ≠ lit "__proto__" ∨ ensureNoteId st env ∈ o.keys := by
  unfold ensureNoteId
  cases hc : st.currentNoteId with
  | none => exact Or.inl (generateNoteId_ne_proto _ _)
  | some i =>
    by_cases hi : i = []
    · simp only [hi, if_true]; exact Or.inl (generateNoteId_ne_proto _ _)
    · simp only [hi, if_false]; exact Or.inr (hcur i hc)

theorem ensureNoteId_of_generated (st : State) (env : Env) :
    ensureNoteId { st with currentNoteId := some (generateNoteId env.dateNow env.random) } env
      = generateNoteId env.dateNow env.random := by
  unfold ensureNoteId
  simp [generateNoteId_ne_nil]

theorem saveToLocalStorage_currentIsKey_of (st : State) (env : Env) (c : JSString)
    (o : NotesObj) (k : JSString) (hn : st.notes = some o) (hk : st.currentNoteId = some k)
    (hne : k ≠ []) (hkey : k ≠ lit "__proto__" ∨ k ∈ o.keys) :
    CurrentIsKey (saveToLocalStorage st env c) := by
  have hid : ensureNoteId st env = k := by
    unfold ensureNoteId
    rw [hk]
    simp [hne]
  apply saveToLocalStorage_currentIsKey_raw st env c o hn
  rw [hid]
  exact hkey

theorem handleTextareaInput_currentIsKey_raw (st : State) (env : Env) (c : JSString)
    (o : NotesObj) (hn : st.notes = some o) (hproto : o.proto = none)
    (hcur : ∀ k, st.currentNoteId = some k → k ∈ o.keys)
    (hurl : ∀ u, st.urlNote = some u → objectPrototypeNames.contains u = false) :
    CurrentIsKey (handleTextareaInput st env c) := by
  obtain ⟨cur, notes, stored, last, url, count⟩ := st
  simp only at hn hcur hurl
  subst hn
  have hgen : CurrentIsKey (saveToLocalStorage
      { currentNoteId := some (generateNoteId env.dateNow env.random), notes := some o,
        storedNotes := stored, lastNote := last, urlNote := url, confirmCount := count }
      env c) :=
    saveToLocalStorage_currentIsKey_of _ env c o (generateNoteId env.dateNow env.random) rfl rfl
      (generateNoteId_ne_nil _ _) (Or.inl (generateNoteId_ne_proto _ _))
  unfold handleTextareaInput
  by_cases h1 : truthyId cur = true
  · simp only [h1, if_true]
    exact saveToLocalStorage_currentIsKey_raw _ env c o rfl (ensureNoteId_of_mem _ env o hcur)
  · simp only [h1, Bool.false_eq_true, if_false]
    by_cases h2 : truthyId url = true
    · simp only [h2, if_true]
      by_cases h3 : (o.read (keyText url)).truthy = true
      · have hg : passesGuard o url = true := by
          unfold passesGuard
          rw [h2, h3]
          rfl
        obtain ⟨u, hu, hmem⟩ := passesGuard_mem o url hproto hurl hg
        have hune : u ≠ [] := by
          intro h0
          rw [hu, h0] at h2
          exact absurd h2 (by decide)
        simp only [h3, if_true]
        exact saveToLocalStorage_currentIsKey_of _ env c o u rfl hu hune (Or.inr hmem)
      · simp only [h3, Bool.false_eq_true, if_false]
        exact hgen
    · simp only [h2, Bool.false_eq_true, if_false]
      exact hgen

theorem createNewNote_fields (st : State) (env : Env) (o : NotesObj)
    (hn : st.notes = some o) :
    ∃ r : NoteRec,
      (createNewNote st env).currentNoteId = some (generateNoteId env.dateNow env.random) ∧
      (createNewNote st env).notes
        = some (o.assign (generateNoteId env.dateNow env.random) r) := by
  unfold createNewNote saveNotesToStorage updateUrlForNote
  simp only [hn]
  cases env.notesWriteOk <;> exact ⟨_, rfl, rfl⟩

theorem createFirstNote_fields (st : State) (env : Env) (o : NotesObj)
    (hn : st.notes = some o) :
    ∃ r : NoteRec,
      (createFirstNote st env).currentNoteId = some (generateNoteId env.dateNow env.random) ∧
      (createFirstNote st env).notes
        = some (o.assign (generateNoteId env.dateNow env.random) r) := by
  unfold createFirstNote saveNotesToStorage updateUrlForNote
  simp only [hn]
  cases env.notesWriteOk <;> exact ⟨_, rfl, rfl⟩

theorem createNewNote_currentIsKey_raw (st : State) (env : Env) (o : NotesObj)
    (hn : st.notes = some o) : CurrentIsKey (createNewNote st env) := by
  obtain ⟨r, hcur, hnotes⟩ := createNewNote_fields st env o hn
  exact ⟨_, _, hnotes, hcur, mem_keys_of_lookup _ _ r
    (assign_lookup_self o _ r (Or.inl (generateNoteId_ne_proto _ _))).1⟩

theorem createFirstNote_currentIsKey (st : State) (env : Env) (o : NotesObj)
    (hn : st.notes = some o) : CurrentIsKey (createFirstNote st env) := by
  obtain ⟨r, hcur, hnotes⟩ := createFirstNote_fields st env o hn
  exact ⟨_, _, hnotes, hcur, mem_keys_of_lookup _ _ r
    (assign_lookup_self o _ r (Or.inl (generateNoteId_ne_proto _ _))).1⟩

theorem switchToNote_of_mem (st : State) (o : NotesObj) (k : JSString)
    (hn : st.notes = some o) (hk : k ∈ o.keys) :
    switchToNote st (some k)
      = { st with currentNoteId := some k, urlNote := some (toUSV k) } := by
  unfold switchToNote updateUrlForNote
  simp only [hn, keyText, read_truthy_of_mem o k hk, if_true]

theorem switchToNote_of_falsy (st : State) (o : NotesObj) (id : Option JSString)
    (hn : st.notes = some o) (h : (o.read (keyText id)).truthy = false) :
    switchToNote st id = st := by
  unfold switchToNote
  simp only [hn, h, Bool.false_eq_true, if_false]

theorem KeysMatchIds.id_mem (o : NotesObj) (hs : KeysMatchIds o.own) (n : NoteRec)
    (hn : n ∈ getAllNotes o) : ∃ k, n.id = some k ∧ k ∈ o.keys := by
  obtain ⟨k, hk⟩ := (mem_getAllNotes_raw o n).mp hn
  exact ⟨k, hs (k, n) (mem_of_lookup o.own k n hk), mem_keys_of_lookup o.own k n hk⟩

theorem KeysMatchIds.delete (o : NotesObj) (hs : KeysMatchIds o.own) (x : JSString) :
    KeysMatchIds (o.delete x).own :=
  fun e he => hs e (List.mem_filter.mp he).1

theorem mem_keys_delete_of_ne (o : NotesObj) (x k : JSString) (hk : k ∈ o.keys)
    (hne : k ≠ x) : k ∈ (o.delete x).keys := by
  unfold NotesObj.keys NotesObj.delete at *
  rw [mem_keys_iff_lookup] at hk ⊢
  rw [lookup_delete, if_neg hne]
  exact hk

theorem deleteNote_of_empty_id (st : State) (env : Env) : deleteNote st env [] = st := by
  unfold deleteNote
  simp

theorem deleteNote_of_falsy (st : State) (env : Env) (x : JSString) (o : NotesObj)
    (hn : st.notes = some o) (h : (o.read x).truthy = false) : deleteNote st env x = st := by
  unfold deleteNote
  by_cases hx : x = []
  · simp [hx]
  · simp [hx, hn, h]

theorem deleteNote_of_declined_raw (st : State) (env : Env) (x : JSString) (o : NotesObj)
    (hn : st.notes = some o) (hx : x ≠ []) (h : (o.read x).truthy = true)
    (hc : env.confirm = false) :
    deleteNote st env x = { st with confirmCount := st.confirmCount + 1 } := by
  unfold deleteNote
  simp [hx, hn, h, hc]

theorem deleteNote_of_other_raw (st : State) (env : Env) (x : JSString) (o : NotesObj)
    (hn : st.notes = some o) (hx : x ≠ []) (h : (o.read x).truthy = true)
    (hc : env.confirm = true) (hcur : st.currentNoteId ≠ some x) :
    deleteNote st env x
      = saveNotesToStorage
          { st with confirmCount := st.confirmCount + 1, notes := some (o.delete x) } env
          env.notesWriteOk := by
  have hcur2 : (saveNotesToStorage
      { st with confirmCount := st.confirmCount + 1, notes := some (o.delete x) } env
      env.notesWriteOk).currentNoteId ≠ some x := by
    rw [(saveNotesToStorage_fields _ env _).1]
    exact hcur
  unfold deleteNote
  simp only [hx, if_false, hn, h, Bool.not_true, Bool.false_eq_true, hc, if_true, hcur2]

theorem deleteNote_of_current_last_raw (st : State) (env : Env) (x : JSString) (o : NotesObj)
    (hn : st.notes = some o) (hx : x ≠ []) (h : (o.read x).truthy = true)
    (hc : env.confirm = true) (hcur : st.currentNoteId = some x)
    (hrem : (o.delete x).own = []) :
    deleteNote st env x
      = createNewNote
          (saveNotesToStorage
            { st with confirmCount := st.confirmCount + 1, notes := some (o.delete x) } env
            env.notesWriteOk)
          { env with notesWriteOk := env.notesWriteAgainOk } := by
  have hcur2 : (saveNotesToStorage
      { st with confirmCount := st.confirmCount + 1, notes := some (o.delete x) } env
      env.notesWriteOk).currentNoteId = some x := by
    rw [(saveNotesToStorage_fields _ env _).1]
    exact hcur
  have hlen : ¬ (o.delete x).keys.length > 0 := by
    simp [NotesObj.keys, hrem]
  unfold deleteNote
  simp only [hx, if_false, hn, h, Bool.not_true, Bool.false_eq_true, hc, if_true, hcur2, hlen]

theorem deleteNote_of_current_more_raw (st : State) (env : Env) (x : JSString) (o : NotesObj)
    (hn : st.notes = some o) (hx : x ≠ []) (h : (o.read x).truthy = true)
    (hc : env.confirm = true) (hcur : st.currentNoteId = some x)
    (hrem : (o.delete x).own ≠ []) :
    ∃ latest ∈ getAllNotes (o.delete x),
      deleteNote st env x
        = switchToNote
            (saveNotesToStorage
              { st with confirmCount := st.confirmCount + 1, notes := some (o.delete x) } env
              env.notesWriteOk)
            latest.id := by
  have hcur2 : (saveNotesToStorage
      { st with confirmCount := st.confirmCount + 1, notes := some (o.delete x) } env
      env.notesWriteOk).currentNoteId = some x := by
    rw [(saveNotesToStorage_fields _ env _).1]
    exact hcur
  have hlen : (o.delete x).keys.length > 0 := by
    simpa [NotesObj.keys, List.length_pos] using hrem
  cases hsort : sortByUpdatedDesc (getAllNotes (o.delete x)) with
  | nil => exact absurd hsort (sortByUpdatedDesc_ne_nil_raw _ (getAllNotes_ne_nil_raw _ hrem))
  | cons latest t =>
    obtain ⟨hmem, _⟩ := sortByUpdatedDesc_head_raw _ latest t hsort
    refine ⟨latest, hmem, ?_⟩
    have hsort2 : sortByUpdatedDesc
        (List.filterMap (fun k => List.lookup k (o.delete x).own) (o.delete x).keys)
          = latest :: t := hsort
    unfold deleteNote
    simp only [hx, if_false, hn, h, Bool.not_true, Bool.false_eq_true, hc, if_true, hcur2,
      hlen, hsort2]

theorem loadCurrentNote_currentIsKey_raw (st : State) (env : Env)
    (stored : List (JSString × NoteRec))
    (hload : (loadNotesFromStorage st env).notes = some { own := stored, proto := none })
    (hs : KeysMatchIds stored)
    (hurl : ∀ u, st.urlNote = some u → objectPrototypeNames.contains u = false)
    (hmarker : ∀ m, st.lastNote = some m → objectPrototypeNames.contains m = false) :
    CurrentIsKey (loadCurrentNote st env) := by
  obtain ⟨_, _, hl, hu, _⟩ := loadNotesFromStorage_fields st env
  rw [← hu] at hurl
  rw [← hl] at hmarker
  unfold loadCurrentNote
  generalize loadNotesFromStorage st env = st1 at hload hurl hmarker ⊢
  obtain ⟨cur, notes, slot, last, url, count⟩ := st1
  simp only at hload hurl hmarker
  subst hload
  simp only
  by_cases hempty : (getAllNotes { own := stored, proto := none }).length = 0
  · rw [if_pos hempty]
    exact createFirstNote_currentIsKey _ env _ rfl
  · rw [if_neg hempty]
    by_cases hg1 : passesGuard { own := stored, proto := none } url = true
    · rw [if_pos hg1]
      obtain ⟨u, hu1, hmem⟩ := passesGuard_mem _ url rfl hurl hg1
      exact ⟨_, u, rfl, hu1, hmem⟩
    · rw [if_neg hg1]
      by_cases hg2 : passesGuard { own := stored, proto := none } last = true
      · rw [if_pos hg2]
        obtain ⟨m, hm1, hmem⟩ := passesGuard_mem _ last rfl hmarker hg2
        exact ⟨_, m, rfl, hm1, hmem⟩
      · rw [if_neg hg2, if_pos (Nat.pos_of_ne_zero hempty)]
        cases hsort : sortByUpdatedDesc (getAllNotes { own := stored, proto := none }) with
        | nil =>
          have hne : getAllNotes { own := stored, proto := none } ≠ [] :=
            fun h0 => hempty (by rw [h0]; rfl)
          exact absurd hsort (sortByUpdatedDesc_ne_nil_raw _ hne)
        | cons n t =>
          obtain ⟨hmem, _⟩ := sortByUpdatedDesc_head_raw _ n t hsort
          obtain ⟨k, hk, hkm⟩ := KeysMatchIds.id_mem { own := stored, proto := none } hs n hmem
          exact ⟨_, k, rfl, hk, hkm⟩

/-! ## The program on every identifier: claim on the current note id -/

/-- C8, as the code has it: take a state in which `notes` has its original
prototype, the current note id is unset or names a store entry, and every
entry of the store, in memory and as persisted, has an `id` field equal to its
key; let the URL note parameter, the marker and the argument `x` be no names
of members of `Object.prototype`. Then each of `loadCurrentNote`,
`handleTextareaInput`, `saveToLocalStorage` and `createNewNote` ends with a
current note id that is a key of the store; so does `switchToNote(x)`, unless
it is a no-op; so does `deleteNote(x)`, unless it leaves the current note id
unchanged, which it does only when the user declined, the call was a no-op or
the current note id was unset. After `switchToNote` and `deleteNote` the
current note id is unset or a key of the store. -/
theorem current_note_in_store_ordinary (st : State) (env : Env) (content x : JSString)
    (h : Consistent st env)
    (hurl : ∀ u, st.urlNote = some u → objectPrototypeNames.contains u = false)
    (hmarker : ∀ m, st.lastNote = some m → objectPrototypeNames.contains m = false)
    (hx : objectPrototypeNames.contains x = false) :
    (CurrentIsKey (loadCurrentNote st env) ∧
      CurrentIsKey (handleTextareaInput st env content) ∧
      CurrentIsKey (saveToLocalStorage st env content) ∧
      CurrentIsKey (createNewNote st env)) ∧
    (CurrentIsKey (switchToNote st (some x)) ∨ switchToNote st (some x) = st) ∧
    (CurrentIsKey (deleteNote st env x) ∨
      ((deleteNote st env x).currentNoteId = st.currentNoteId ∧
        (env.confirm = false ∨ deleteNote st env x = st ∨ st.currentNoteId = none))) ∧
    (CurrentInStore (switchToNote st (some x)) ∧ CurrentInStore (deleteNote st env x)) := by
  obtain ⟨⟨o, hn, hproto, hmatch, hcur⟩, stored, hload, hstored⟩ := h
  have hinstore : CurrentInStore st := fun k hk => ⟨o, hn, hcur k hk⟩
  have hswitch : CurrentIsKey (switchToNote st (some x)) ∨ switchToNote st (some x) = st := by
    by_cases ht : (o.read x).truthy = true
    · have hmem : x ∈ o.keys := mem_keys_of_read_truthy o x hproto hx ht
      rw [switchToNote_of_mem st o x hn hmem]
      exact Or.inl ⟨o, x, hn, rfl, hmem⟩
    · exact Or.inr (switchToNote_of_falsy st o (some x) hn (by simpa [keyText] using ht))
  have hdelete : CurrentIsKey (deleteNote st env x) ∨
      ((deleteNote st env x).currentNoteId = st.currentNoteId ∧
        (env.confirm = false ∨ deleteNote st env x = st ∨ st.currentNoteId = none)) := by
    by_cases hxe : x = []
    · rw [hxe, deleteNote_of_empty_id]
      exact Or.inr ⟨rfl, Or.inr (Or.inl rfl)⟩
    by_cases ht : (o.read x).truthy = true
    swap
    · rw [deleteNote_of_falsy st env x o hn (by simpa using ht)]
      exact Or.inr ⟨rfl, Or.inr (Or.inl rfl)⟩
    cases hc : env.confirm with
    | false =>
      rw [deleteNote_of_declined_raw st env x o hn hxe ht hc]
      exact Or.inr ⟨rfl, Or.inl rfl⟩
    | true =>
      by_cases hcx : st.currentNoteId = some x
      · by_cases hrem : (o.delete x).own = []
        · rw [deleteNote_of_current_last_raw st env x o hn hxe ht hc hcx hrem]
          exact Or.inl (createNewNote_currentIsKey_raw _ _ (o.delete x)
            (by rw [(saveNotesToStorage_fields _ env _).2.1]))
        · obtain ⟨latest, hl, heq⟩ :=
            deleteNote_of_current_more_raw st env x o hn hxe ht hc hcx hrem
          obtain ⟨k, hk, hkm⟩ :=
            KeysMatchIds.id_mem (o.delete x) (KeysMatchIds.delete o hmatch x) latest hl
          rw [heq, hk, switchToNote_of_mem _ (o.delete x) k
            (by rw [(saveNotesToStorage_fields _ env _).2.1]) hkm]
          exact Or.inl ⟨o.delete x, k, by rw [(saveNotesToStorage_fields _ env _).2.1],
            rfl, hkm⟩
      · rw [deleteNote_of_other_raw st env x o hn hxe ht hc hcx]
        cases hk : st.currentNoteId with
        | none =>
          exact Or.inr ⟨by rw [(saveNotesToStorage_fields _ env _).1], Or.inr (Or.inr rfl)⟩
        | some k =>
          have hne : k ≠ x := fun hkx => hcx (by rw [hk, hkx])
          exact Or.inl ⟨o.delete x, k, by rw [(saveNotesToStorage_fields _ env _).2.1],
            by rw [(saveNotesToStorage_fields _ env _).1],
            mem_keys_delete_of_ne o x k (hcur k hk) hne⟩
  refine ⟨⟨loadCurrentNote_currentIsKey_raw st env stored hload hstored hurl hmarker,
    handleTextareaInput_currentIsKey_raw st env content o hn hproto hcur hurl,
    saveToLocalStorage_currentIsKey_raw st env content o hn (ensureNoteId_of_mem st env o hcur),
    createNewNote_currentIsKey_raw st env o hn⟩, hswitch, hdelete, ?_, ?_⟩
  · rcases hswitch with ⟨o1, k, hn1, hk, hkm⟩ | heq
    · intro k1 hk1
      rw [hk] at hk1
      cases hk1
      exact ⟨o1, hn1, hkm⟩
    · rw [heq]; exact hinstore
  · rcases hdelete with ⟨o1, k, hn1, hk, hkm⟩ | ⟨heq, hcase⟩
    · intro k1 hk1
      rw [hk] at hk1
      cases hk1
      exact ⟨o1, hn1, hkm⟩
    · intro k1 hk1
      rw [heq] at hk1
      rcases hcase with hc | hnoop | hnone
      · by_cases hxe : x = []
        · rw [hxe, deleteNote_of_empty_id]; exact hinstore k1 hk1
        · by_cases ht : (o.read x).truthy = true
          · rw [deleteNote_of_declined_raw st env x o hn hxe ht hc]
            exact ⟨o, hn, hcur k1 hk1⟩
          · rw [deleteNote_of_falsy st env x o hn (by simpa using ht)]
            exact hinstore k1 hk1
      · rw [hnoop]; exact hinstore k1 hk1
      · rw [hnone] at hk1; cases hk1

/-- C8 at the sample data: from the state in which note A is current, the
operations end with a current note id that is a key of the store. -/
theorem current_note_in_store_ordinary_witness :
    Consistent editingState sampleEnv ∧
    CurrentIsKey (loadCurrentNote editingState sampleEnv) ∧
    CurrentIsKey (handleTextareaInput editingState sampleEnv (lit "Hi")) ∧
    CurrentInStore (deleteNote editingState sampleEnv (lit "note_2_b")) :=
  have hcons : Consistent editingState sampleEnv :=
    ⟨⟨{ own := sampleOwn, proto := none }, rfl, rfl, by decide,
      fun k hk => by cases hk; decide⟩, sampleOwn, by decide, by decide⟩
  ⟨hcons,
   (current_note_in_store_ordinary editingState sampleEnv (lit "Hi") (lit "note_2_b") hcons
      (fun u hu => by cases hu) (fun m hm => by cases hm) (by decide)).1.1,
   (current_note_in_store_ordinary editingState sampleEnv (lit "Hi") (lit "note_2_b") hcons
      (fun u hu => by cases hu) (fun m hm => by cases hm) (by decide)).1.2.1,
   (current_note_in_store_ordinary editingState sampleEnv (lit "Hi") (lit "note_2_b") hcons
      (fun u hu => by cases hu) (fun m hm => by cases hm) (by decide)).2.2.2.2⟩

/-- C8 as stated fails twice, by design. With the sample store loaded and no
current note id, the confirmed deletion of the stored note A is neither
declined nor a no-op, and ends with the current note id unset, which is no key
of the store. With an empty store in memory, whose entries trivially have
their keys as `id` fields, and a persisted note stored under a key that is not
its `id` field, `loadCurrentNote` ends with a current note id that is no key
of the store. Neither state involves a name of `Object.prototype`. -/
theorem current_note_in_store_fails_by_design :
    (unselectedState.currentNoteId = none ∧
      unselectedState.notes = some { own := sampleOwn, proto := none } ∧
      KeysMatchIds sampleOwn ∧
      sampleEnv.confirm = true ∧
      lit "note_1_a" ∈ sampleOwn.map Prod.fst ∧
      deleteNote unselectedState sampleEnv (lit "note_1_a") ≠ unselectedState ∧
      (deleteNote unselectedState sampleEnv (lit "note_1_a")).notes
        = some { own := [(lit "note_2_b", noteB)], proto := none } ∧
      (deleteNote unselectedState sampleEnv (lit "note_1_a")).currentNoteId = none) ∧
    (staleState.currentNoteId = none ∧
      staleState.notes = some { own := [], proto := none } ∧
      (loadCurrentNote staleState sampleEnv).notes
        = some { own := mismatchedOwn, proto := none } ∧
      (loadCurrentNote staleState sampleEnv).currentNoteId = some (lit "note_9_z") ∧
      lit "note_9_z" ∉ mismatchedOwn.map Prod.fst) := by
  decide

end Raw

end BlankNotes
